import Mathlib

/-
Shallow embedding of `engine.py` from the Vision-Transformer repository:
the three epoch loops `train_one_epoch`, `train_one_epoch_distillation` and
`evaluate`.

Modelling conventions:
* A Python float scalar is `FloatVal`: a finite rational, NaN, or a signed
  infinity (rounding of finite arithmetic is abstracted away; the
  finite/NaN/infinity distinction that `math.isfinite` observes is kept).
* A logits tensor of shape (batch, classes) is `List (List ℚ)`; a target
  tensor is `List ℕ` of class indices; a batch of input samples is a
  `List Inp` for an abstract per-sample input type `Inp`, so that
  `images.shape[0]` is the list length.
* The external library state (model parameters together with their gradients
  and the optimizer state) is an abstract type, transformed by opaque
  parameter functions `forward`, `zeroGrad`, `backward`, `optStep` supplied
  by the caller, exactly as `model`, `criterion` and `optimizer` are supplied
  to the Python functions.  `model.train()` / `model.eval()` toggle a
  `training : Bool` flag carried next to the parameters.
* `.to(device, non_blocking=True)` is the identity on pure values and is not
  represented; `torch.cuda.synchronize()` is recorded as a trace event only.
* Every side effect (forward call, print, `sys.exit`, gradient operations,
  metric updates) is recorded in an event trace so that ordering and
  frame claims are statable.
-/

namespace VitEngine

/-- Scalar value of a Python float: a finite rational, NaN, or a signed
infinity. -/
inductive FloatVal where
  | fin (q : ℚ)
  | nan
  | posInf
  | negInf
  deriving DecidableEq, Repr

/-- Embedding of Python `math.isfinite` on a float scalar. -/
def FloatVal.isFinite : FloatVal → Bool
  | .fin _ => true
  | _ => false

/-- Multiplication of a float scalar by a finite Python number (the scalars
`alpha`, `1 - alpha`, `temp * temp`, and meter weights are finite). -/
def FloatVal.mulQ (c : ℚ) : FloatVal → FloatVal
  | .fin q => .fin (c * q)
  | .nan => .nan
  | .posInf => if 0 < c then .posInf else if c < 0 then .negInf else .nan
  | .negInf => if 0 < c then .negInf else if c < 0 then .posInf else .nan

/-- Addition of two float scalars, with IEEE NaN/infinity propagation. -/
def FloatVal.add : FloatVal → FloatVal → FloatVal
  | .fin a, .fin b => .fin (a + b)
  | .nan, _ => .nan
  | _, .nan => .nan
  | .posInf, .negInf => .nan
  | .negInf, .posInf => .nan
  | .posInf, _ => .posInf
  | _, .posInf => .posInf
  | .negInf, _ => .negInf
  | _, .negInf => .negInf

/-- Division of a float scalar by a natural count.  A zero count would raise
`ZeroDivisionError` in Python; it is mapped to NaN here and is never reached
on the meters the loops return. -/
def FloatVal.divNat (v : FloatVal) (n : ℕ) : FloatVal :=
  if n = 0 then .nan else FloatVal.mulQ (1 / (n : ℚ)) v

/-- Rendering of a float scalar for `print`, as in
`"Loss is " + str(loss_value) + ", stopping training"`. -/
def FloatVal.render : FloatVal → String
  | .fin q => toString q
  | .nan => "nan"
  | .posInf => "inf"
  | .negInf => "-inf"

/-- The message printed by both training loops before `sys.exit(1)` when the
loss is not finite. -/
def lossMsg (v : FloatVal) : String :=
  "Loss is " ++ v.render ++ ", stopping training"

/-- Modelled from the spec: the repository imports `utils.MetricLogger`, whose
module `utils.py` is not among the sources.  Per the spec it "aggregates
metrics": each named meter is a smoothed value with a running `total` and
`count`; `update value n` adds `value * n` to the total and `n` to the count,
and `global_avg` is `total / count`. -/
structure Meter where
  total : FloatVal
  count : ℕ
  deriving DecidableEq, Repr

def Meter.empty : Meter := ⟨.fin 0, 0⟩

def Meter.update (m : Meter) (v : FloatVal) (n : ℕ) : Meter :=
  ⟨m.total.add (FloatVal.mulQ (n : ℚ) v), m.count + n⟩

def Meter.global_avg (m : Meter) : FloatVal := m.total.divNat m.count

/-- Modelled from the spec: the meter dictionary of a `MetricLogger`, as an
association list so that Python dict insertion order is preserved. -/
abbrev MLog : Type := List (String × Meter)

/-- Meter lookup; a missing name denotes the fresh meter the `defaultdict`
would create. -/
def MLog.find (log : MLog) (name : String) : Meter :=
  match log.lookup name with
  | some m => m
  | none => Meter.empty

/-- Modelled from the spec: `metric_logger.meters[name].update(v, n)` on a
`defaultdict` of meters: update in place when present, insert at the end
otherwise. -/
def MLog.update (log : MLog) (name : String) (v : FloatVal) (n : ℕ) : MLog :=
  if (log.lookup name).isSome then
    log.map (fun p => if p.1 = name then (p.1, p.2.update v n) else p)
  else
    log ++ [(name, Meter.empty.update v n)]

/-- The dictionary each loop returns:
`{k: meter.global_avg for k, meter in metric_logger.meters.items()}`. -/
def MLog.resultDict (log : MLog) : List (String × FloatVal) :=
  log.map (fun p => (p.1, p.2.global_avg))

/-- Index of the first maximal entry of a row, as `tensor.max(1)` returns for
the predicted class. -/
def argmaxAux : List ℚ → ℕ → ℕ → ℚ → ℕ
  | [], _, bi, _ => bi
  | x :: xs, i, bi, bv =>
    if bv < x then argmaxAux xs (i + 1) i x else argmaxAux xs (i + 1) bi bv

def argmaxIdx : List ℚ → ℕ
  | [] => 0
  | x :: xs => argmaxAux xs 1 0 x

/-- Embedding of `predicted.eq(targets).sum().item()` after
`_, predicted = outputs.max(1)`: the number of rows whose argmax over
dimension 1 equals the target. -/
def countCorrect (outputs : List (List ℚ)) (targets : List ℕ) : ℕ :=
  ((outputs.zip targets).filter (fun p => argmaxIdx p.1 = p.2)).length

/-- Trace event for each observable action of the loops.  The `noGrad` flag
records whether the forward call ran inside a `torch.no_grad` scope. -/
inductive Event where
  | modelForward (training : Bool) (noGrad : Bool)
  | teacherForward (training : Bool) (noGrad : Bool)
  | lossComputed (v : FloatVal)
  | finiteCheck (ok : Bool)
  | printLine (s : String)
  | exitCalled (code : ℕ)
  | zeroGradCall
  | backwardCall
  | optStepCall
  | cudaSync
  | meterUpdate (name : String) (v : FloatVal) (n : ℕ)
  | accCount (correct : ℕ) (batchSize : ℕ)
  deriving DecidableEq, Repr

/-- A model object: library-side state (parameters, gradients, optimizer
internals) of abstract type `P` plus the train/eval mode flag. -/
structure Net (P : Type) where
  params : P
  training : Bool
  deriving DecidableEq, Repr

/-- The operations the external library supplies for one model/optimizer
pair: the forward pass (which may depend on the mode flag), and the three
gradient operations `optimizer.zero_grad()`, `loss.backward()`,
`optimizer.step()` as opaque transformations of the library state. -/
structure TorchOps (P Inp : Type) where
  forward : Bool → P → List Inp → List (List ℚ)
  zeroGrad : P → P
  backward : P → List Inp → List ℕ → P
  optStep : P → P

/-- Running state of a training loop body. -/
structure LoopSt (P : Type) where
  net : Net P
  mlog : MLog
  total_correct : ℕ
  total_samples : ℕ
  trace : List Event
  deriving DecidableEq, Repr

/-- Observable outcome of `sys.exit(1)`: the printed line, the exit status,
and the state at the moment of exit. -/
structure Exited (P : Type) where
  printed : String
  code : ℕ
  st : LoopSt P
  deriving DecidableEq, Repr

/-- The loss computed for one batch of `train_one_epoch`:
`criterion(model(samples), targets)`. -/
def trainLossOf {P Inp : Type} (ops : TorchOps P Inp)
    (criterion : List (List ℚ) → List ℕ → FloatVal)
    (st : LoopSt P) (batch : List Inp × List ℕ) : FloatVal :=
  criterion (ops.forward st.net.training st.net.params batch.1) batch.2

/-- One iteration of the `train_one_epoch` loop body, lines 25-49 of
`engine.py`. -/
def train_batch {P Inp : Type} (ops : TorchOps P Inp)
    (criterion : List (List ℚ) → List ℕ → FloatVal)
    (st : LoopSt P) (batch : List Inp × List ℕ) :
    Except (Exited P) (LoopSt P) :=
  let samples := batch.1
  let targets := batch.2
  let outputs := ops.forward st.net.training st.net.params samples
  let loss_value := criterion outputs targets
  let trace0 := st.trace ++
    [Event.modelForward st.net.training false, Event.lossComputed loss_value,
     Event.finiteCheck loss_value.isFinite]
  if loss_value.isFinite then
    let p1 := ops.zeroGrad st.net.params
    let p2 := ops.backward p1 samples targets
    let p3 := ops.optStep p2
    let correct := countCorrect outputs targets
    Except.ok
      { net := { params := p3, training := st.net.training }
        mlog := st.mlog.update "loss" loss_value 1
        total_correct := st.total_correct + correct
        total_samples := st.total_samples + targets.length
        trace := trace0 ++
          [Event.zeroGradCall, Event.backwardCall, Event.optStepCall,
           Event.cudaSync, Event.meterUpdate "loss" loss_value 1,
           Event.accCount correct targets.length] }
  else
    Except.error
      { printed := lossMsg loss_value
        code := 1
        st := { st with trace := trace0 ++
          [Event.printLine (lossMsg loss_value), Event.exitCalled 1] } }

/-- The `for samples, targets in metric_logger.log_every(...)` loop of
`train_one_epoch`, consuming the batches in order. -/
def foldTrain {P Inp : Type} (ops : TorchOps P Inp)
    (criterion : List (List ℚ) → List ℕ → FloatVal) :
    LoopSt P → List (List Inp × List ℕ) → Except (Exited P) (LoopSt P)
  | st, [] => Except.ok st
  | st, b :: bs =>
    match train_batch ops criterion st b with
    | Except.ok st2 => foldTrain ops criterion st2 bs
    | Except.error e => Except.error e

/-- Abnormal terminations of a training epoch: the `sys.exit(1)` abort, or
the `ZeroDivisionError` raised by `100.0 * total_correct / total_samples`
when `total_samples` is `0`. -/
inductive RunErr (P : Type) where
  | exited (e : Exited P)
  | zeroDivision (st : LoopSt P)
  deriving DecidableEq, Repr

/-- Normal result of a training epoch: the returned dictionary, the training
accuracy printed at line 52, and the final loop state. -/
structure EpochOut (P : Type) where
  result : List (String × FloatVal)
  accuracyPct : ℚ
  finalSt : LoopSt P
  deriving DecidableEq, Repr

/-- Embedding of `train_one_epoch(model, criterion, data_loader, optimizer,
device, epoch)`, lines 14-54 of `engine.py`. -/
def train_one_epoch {P Inp : Type} (ops : TorchOps P Inp)
    (criterion : List (List ℚ) → List ℕ → FloatVal) (model : Net P)
    (data_loader : List (List Inp × List ℕ)) :
    Except (RunErr P) (EpochOut P) :=
  let st0 : LoopSt P :=
    { net := { params := model.params, training := true }
      mlog := []
      total_correct := 0
      total_samples := 0
      trace := [] }
  match foldTrain ops criterion st0 data_loader with
  | Except.error e => Except.error (RunErr.exited e)
  | Except.ok st =>
    if st.total_samples = 0 then Except.error (RunErr.zeroDivision st)
    else
      Except.ok
        { result := st.mlog.resultDict
          accuracyPct := 100 * (st.total_correct : ℚ) / (st.total_samples : ℚ)
          finalSt := st }

/-- Scalar division of a tensor, as in `outputs / temp`. -/
def tensorDivScalar (t : List (List ℚ)) (c : ℚ) : List (List ℚ) :=
  t.map (fun r => r.map (fun x => x / c))

/-- Rowwise application of a vector function, as `F.log_softmax(·, dim=1)`
and `F.softmax(·, dim=1)` act on a (batch, classes) tensor. -/
def rowwise (f : List ℚ → List ℚ) (t : List (List ℚ)) : List (List ℚ) :=
  t.map f

/-- The external `torch` functions the distillation loss composes: the
rowwise `F.log_softmax` and `F.softmax` kernels and
`torch.nn.KLDivLoss(reduction="batchmean")`.  Their numerics live in the
external library; the loop only composes them. -/
structure KDLib where
  log_softmax_row : List ℚ → List ℚ
  softmax_row : List ℚ → List ℚ
  kl_div_batchmean : List (List ℚ) → List (List ℚ) → FloatVal

/-- Running state of the distillation loop body: teacher and student models,
the metric logger, and the accuracy counters. -/
structure KDLoopSt (P Q : Type) where
  teacher : Net Q
  student : Net P
  mlog : MLog
  total_correct : ℕ
  total_samples : ℕ
  trace : List Event
  deriving DecidableEq, Repr

/-- Observable outcome of `sys.exit(1)` in the distillation loop. -/
structure KDExited (P Q : Type) where
  printed : String
  code : ℕ
  st : KDLoopSt P Q
  deriving DecidableEq, Repr

/-- The knowledge-distillation loss computed for one batch, lines 80-86 of
`engine.py`: `loss = alpha * loss_ce + (1.0 - alpha) * loss_kd` with
`loss_kd = kl_loss(F.log_softmax(outputs / temp, dim=1),
F.softmax(outputs_teacher / temp, dim=1)) * (temp * temp)`. -/
def kdLossOf (lib : KDLib)
    (criterion : List (List ℚ) → List ℕ → FloatVal) (alpha temp : ℚ)
    (outputs outputs_teacher : List (List ℚ)) (targets : List ℕ) : FloatVal :=
  let loss_ce := criterion outputs targets
  let loss_kd :=
    FloatVal.mulQ (temp * temp)
      (lib.kl_div_batchmean
        (rowwise lib.log_softmax_row (tensorDivScalar outputs temp))
        (rowwise lib.softmax_row (tensorDivScalar outputs_teacher temp)))
  (FloatVal.mulQ alpha loss_ce).add (FloatVal.mulQ (1 - alpha) loss_kd)

/-- One iteration of the `train_one_epoch_distillation` loop body, lines
69-103 of `engine.py`.  The teacher forward pass runs inside
`torch.no_grad()`; the gradient operations act on the student state only. -/
def distill_batch {P Q Inp : Type} (ops : TorchOps P Inp)
    (teacherForward : Bool → Q → List Inp → List (List ℚ)) (lib : KDLib)
    (criterion : List (List ℚ) → List ℕ → FloatVal) (alpha temp : ℚ)
    (st : KDLoopSt P Q) (batch : List Inp × List ℕ) :
    Except (KDExited P Q) (KDLoopSt P Q) :=
  let samples := batch.1
  let targets := batch.2
  let outputs := ops.forward st.student.training st.student.params samples
  let outputs_teacher :=
    teacherForward st.teacher.training st.teacher.params samples
  let loss_value := kdLossOf lib criterion alpha temp outputs outputs_teacher targets
  let trace0 := st.trace ++
    [Event.modelForward st.student.training false,
     Event.teacherForward st.teacher.training true,
     Event.lossComputed loss_value,
     Event.finiteCheck loss_value.isFinite]
  if loss_value.isFinite then
    let p1 := ops.zeroGrad st.student.params
    let p2 := ops.backward p1 samples targets
    let p3 := ops.optStep p2
    let correct := countCorrect outputs targets
    Except.ok
      { teacher := st.teacher
        student := { params := p3, training := st.student.training }
        mlog := st.mlog.update "loss" loss_value 1
        total_correct := st.total_correct + correct
        total_samples := st.total_samples + targets.length
        trace := trace0 ++
          [Event.zeroGradCall, Event.backwardCall, Event.optStepCall,
           Event.cudaSync, Event.meterUpdate "loss" loss_value 1,
           Event.accCount correct targets.length] }
  else
    Except.error
      { printed := lossMsg loss_value
        code := 1
        st := { st with trace := trace0 ++
          [Event.printLine (lossMsg loss_value), Event.exitCalled 1] } }

/-- The batch loop of `train_one_epoch_distillation`, consuming the batches
in order. -/
def foldDistill {P Q Inp : Type} (ops : TorchOps P Inp)
    (teacherForward : Bool → Q → List Inp → List (List ℚ)) (lib : KDLib)
    (criterion : List (List ℚ) → List ℕ → FloatVal) (alpha temp : ℚ) :
    KDLoopSt P Q → List (List Inp × List ℕ) →
      Except (KDExited P Q) (KDLoopSt P Q)
  | st, [] => Except.ok st
  | st, b :: bs =>
    match distill_batch ops teacherForward lib criterion alpha temp st b with
    | Except.ok st2 => foldDistill ops teacherForward lib criterion alpha temp st2 bs
    | Except.error e => Except.error e

/-- Abnormal terminations of a distillation epoch. -/
inductive KDRunErr (P Q : Type) where
  | exited (e : KDExited P Q)
  | zeroDivision (st : KDLoopSt P Q)
  deriving DecidableEq, Repr

/-- Normal result of a distillation epoch. -/
structure KDEpochOut (P Q : Type) where
  result : List (String × FloatVal)
  accuracyPct : ℚ
  finalSt : KDLoopSt P Q
  deriving DecidableEq, Repr

/-- The Python default value of the `alpha` parameter of
`train_one_epoch_distillation`. -/
def alphaDefault : ℚ := 1 / 2

/-- The Python default value of the `temp` parameter of
`train_one_epoch_distillation`. -/
def tempDefault : ℚ := 2

/-- Embedding of `train_one_epoch_distillation(teacher, student, criterion,
data_loader, optimizer, device, epoch, alpha=0.5, temp=2.0)`, lines 56-108 of
`engine.py`.  `teacher.eval()` and `student.train()` set the mode flags
before the loop. -/
def train_one_epoch_distillation {P Q Inp : Type} (ops : TorchOps P Inp)
    (teacherForward : Bool → Q → List Inp → List (List ℚ)) (lib : KDLib)
    (criterion : List (List ℚ) → List ℕ → FloatVal) (teacher : Net Q)
    (student : Net P) (data_loader : List (List Inp × List ℕ))
    (alpha temp : ℚ) : Except (KDRunErr P Q) (KDEpochOut P Q) :=
  let st0 : KDLoopSt P Q :=
    { teacher := { params := teacher.params, training := false }
      student := { params := student.params, training := true }
      mlog := []
      total_correct := 0
      total_samples := 0
      trace := [] }
  match foldDistill ops teacherForward lib criterion alpha temp st0 data_loader with
  | Except.error e => Except.error (KDRunErr.exited e)
  | Except.ok st =>
    if st.total_samples = 0 then Except.error (KDRunErr.zeroDivision st)
    else
      Except.ok
        { result := st.mlog.resultDict
          accuracyPct := 100 * (st.total_correct : ℚ) / (st.total_samples : ℚ)
          finalSt := st }

/-- Insertion of an index into a list of indices sorted by row value in
decreasing order (stable: on equal values the earlier-inserted, hence lower,
index stays first, matching `torch.topk` on contiguous input). -/
def insertByVal (row : List ℚ) (i : ℕ) : List ℕ → List ℕ
  | [] => [i]
  | j :: js =>
    if row.getD j 0 < row.getD i 0 then i :: j :: js
    else j :: insertByVal row i js

/-- Indices of a row sorted by value in decreasing order. -/
def sortedIdxDesc (row : List ℚ) : List ℕ :=
  (List.range row.length).foldl (fun acc i => insertByVal row i acc) []

/-- Number of rows whose target index is among the k largest logits, as
`timm.utils.accuracy` counts top-k hits. -/
def topkCorrect (k : ℕ) (output : List (List ℚ)) (target : List ℕ) : ℕ :=
  ((output.zip target).filter
    (fun p => ((sortedIdxDesc p.1).take k).contains p.2)).length

/-- Embedding of `timm.utils.accuracy(output, target, topk=(1, 5))` for one
`k`: `correct_k * 100.0 / batch_size` with `batch_size = target.size(0)`. -/
def accuracyTopk (k : ℕ) (output : List (List ℚ)) (target : List ℕ) : ℚ :=
  (topkCorrect k output target : ℚ) * 100 / (target.length : ℚ)

/-- Running state of the `evaluate` loop body. -/
structure EvalSt (P : Type) where
  net : Net P
  mlog : MLog
  trace : List Event
  deriving DecidableEq, Repr

/-- One iteration of the `evaluate` loop body, lines 120-134 of `engine.py`.
The whole function runs under the `@torch.no_grad()` decorator; the loss
meter is updated with unit weight and the accuracy meters with
`n = batch_size = images.shape[0]`. -/
def eval_batch {P Inp : Type}
    (forward : Bool → P → List Inp → List (List ℚ))
    (criterion : List (List ℚ) → List ℕ → FloatVal)
    (st : EvalSt P) (batch : List Inp × List ℕ) : EvalSt P :=
  let images := batch.1
  let target := batch.2
  let output := forward st.net.training st.net.params images
  let loss := criterion output target
  let acc1 := accuracyTopk 1 output target
  let acc5 := accuracyTopk 5 output target
  let batch_size := images.length
  { net := st.net
    mlog := ((st.mlog.update "loss" loss 1).update "acc1"
        (FloatVal.fin acc1) batch_size).update "acc5"
        (FloatVal.fin acc5) batch_size
    trace := st.trace ++
      [Event.modelForward st.net.training true, Event.lossComputed loss,
       Event.meterUpdate "loss" loss 1,
       Event.meterUpdate "acc1" (FloatVal.fin acc1) batch_size,
       Event.meterUpdate "acc5" (FloatVal.fin acc5) batch_size] }

/-- Result of `evaluate`: the returned dictionary and the final state. -/
structure EvalOut (P : Type) where
  result : List (String × FloatVal)
  finalSt : EvalSt P
  deriving DecidableEq, Repr

/-- Embedding of `evaluate(data_loader, model, criterion, device)`, lines
111-139 of `engine.py`.  `model.eval()` clears the mode flag; the loop never
checks finiteness and never exits. -/
def evaluate {P Inp : Type} (data_loader : List (List Inp × List ℕ))
    (forward : Bool → P → List Inp → List (List ℚ))
    (criterion : List (List ℚ) → List ℕ → FloatVal) (model : Net P) :
    EvalOut P :=
  let st0 : EvalSt P :=
    { net := { params := model.params, training := false }
      mlog := []
      trace := [] }
  let stF := data_loader.foldl (eval_batch forward criterion) st0
  { result := stF.mlog.resultDict
    finalSt := stF }

/-- Event classifiers used by the absence claims. -/
def Event.isExit : Event → Bool
  | .exitCalled _ => true
  | _ => false

def Event.isFiniteCheck : Event → Bool
  | .finiteCheck _ => true
  | _ => false

def Event.isGradOp : Event → Bool
  | .zeroGradCall => true
  | .backwardCall => true
  | .optStepCall => true
  | _ => false

def Event.isOptStep : Event → Bool
  | .optStepCall => true
  | _ => false

def Event.isMeterUpdate : Event → Bool
  | .meterUpdate _ _ _ => true
  | _ => false

/-- True unless the event is a forward pass executed with gradient tracking
enabled. -/
def Event.noGradForward : Event → Bool
  | .modelForward _ ng => ng
  | .teacherForward _ ng => ng
  | _ => true

/-- True unless the event is a teacher forward pass executed outside
`torch.no_grad` or with the teacher in training mode. -/
def Event.teacherEvalNoGrad : Event → Bool
  | .teacherForward tr ng => !tr && ng
  | _ => true

/-- True unless the event is a meter update with weight other than one. -/
def Event.unitWeight : Event → Bool
  | .meterUpdate _ _ n => n == 1
  | _ => true

/-- Sum of the `correct` components of the `accCount` events of a trace. -/
def traceCorrectSum : List Event → ℕ
  | [] => 0
  | .accCount c _ :: t => c + traceCorrectSum t
  | _ :: t => traceCorrectSum t

/-- Sum of the `batchSize` components of the `accCount` events of a trace. -/
def traceSamplesSum : List Event → ℕ
  | [] => 0
  | .accCount _ n :: t => n + traceSamplesSum t
  | _ :: t => traceSamplesSum t

/-- State carried by the outcome of one `train_one_epoch` batch iteration,
whether it returned or exited. -/
def stepSt {P : Type} : Except (Exited P) (LoopSt P) → LoopSt P
  | .ok st => st
  | .error e => e.st

/-- State carried by the outcome of one distillation batch iteration. -/
def kdStepSt {P Q : Type} : Except (KDExited P Q) (KDLoopSt P Q) → KDLoopSt P Q
  | .ok st => st
  | .error e => e.st

/-- Final loop state of a distillation epoch, on every outcome. -/
def kdOutcomeSt {P Q : Type} :
    Except (KDRunErr P Q) (KDEpochOut P Q) → KDLoopSt P Q
  | .ok out => out.finalSt
  | .error (.exited e) => e.st
  | .error (.zeroDivision st) => st

/-- The distillation loss exactly as the specification words it:
`alpha * criterion(student_outputs, targets) + (1 - alpha) * temp^2 *
KLDivLoss_batchmean(log_softmax(student_outputs / temp, dim=1),
softmax(teacher_outputs / temp, dim=1))`. -/
def specDistillLoss (lib : KDLib)
    (criterion : List (List ℚ) → List ℕ → FloatVal) (alpha temp : ℚ)
    (student_outputs teacher_outputs : List (List ℚ)) (targets : List ℕ) :
    FloatVal :=
  (FloatVal.mulQ alpha (criterion student_outputs targets)).add
    (FloatVal.mulQ ((1 - alpha) * temp ^ 2)
      (lib.kl_div_batchmean
        (rowwise lib.log_softmax_row (tensorDivScalar student_outputs temp))
        (rowwise lib.softmax_row (tensorDivScalar teacher_outputs temp))))

/-- Concrete library instance on trivial inputs, used to evaluate the
theorems at explicit points. -/
def unitOps : TorchOps ℕ Unit where
  forward := fun _ _ samples => samples.map (fun _ => [(1 : ℚ), 0])
  zeroGrad := fun p => p
  backward := fun p _ _ => p
  optStep := fun p => p + 1

def teacherFwd0 : Bool → ℕ → List Unit → List (List ℚ) :=
  fun _ _ samples => samples.map (fun _ => [(0 : ℚ), 1])

def lib0 : KDLib where
  log_softmax_row := fun r => r
  softmax_row := fun r => r
  kl_div_batchmean := fun x y => FloatVal.fin ((x.length : ℚ) + (y.length : ℚ))

def oneCrit : List (List ℚ) → List ℕ → FloatVal := fun _ _ => FloatVal.fin 1

def nanCrit : List (List ℚ) → List ℕ → FloatVal := fun _ _ => FloatVal.nan

def net0 : Net ℕ := ⟨0, false⟩

def batch0 : List Unit × List ℕ := ([()], [0])

def stA : LoopSt ℕ :=
  { net := ⟨0, true⟩, mlog := [], total_correct := 0, total_samples := 0
    trace := [] }

def kdStA : KDLoopSt ℕ ℕ :=
  { teacher := ⟨7, false⟩, student := ⟨0, true⟩, mlog := []
    total_correct := 0, total_samples := 0, trace := [] }

/-- Final loop state of a `train_one_epoch` run, on every outcome (for a
`ZeroDivisionError` or `sys.exit` outcome, the state at the moment of the
abort). -/
def finalLoopSt {P : Type} : Except (RunErr P) (EpochOut P) → LoopSt P
  | .ok out => out.finalSt
  | .error (.exited e) => e.st
  | .error (.zeroDivision st) => st

/-- Returned dictionary of a `train_one_epoch` run, empty on an abort. -/
def okResult {P : Type} : Except (RunErr P) (EpochOut P) → List (String × FloatVal)
  | .ok out => out.result
  | .error _ => []

/-- Printed training accuracy of a `train_one_epoch` run, zero on an abort. -/
def okAccuracyPct {P : Type} : Except (RunErr P) (EpochOut P) → ℚ
  | .ok out => out.accuracyPct
  | .error _ => 0

/-- Returned dictionary of a distillation run, empty on an abort. -/
def kdOkResult {P Q : Type} :
    Except (KDRunErr P Q) (KDEpochOut P Q) → List (String × FloatVal)
  | .ok out => out.result
  | .error _ => []

/-- Printed training accuracy of a distillation run, zero on an abort. -/
def kdOkAccuracyPct {P Q : Type} :
    Except (KDRunErr P Q) (KDEpochOut P Q) → ℚ
  | .ok out => out.accuracyPct
  | .error _ => 0

/-- Printed line and exit status of a failed batch iteration. -/
def exitInfo {P : Type} : Except (Exited P) (LoopSt P) → Option (String × ℕ)
  | .error e => some (e.printed, e.code)
  | .ok _ => none

/-- Printed line and exit status of a failed distillation batch iteration. -/
def kdExitInfo {P Q : Type} :
    Except (KDExited P Q) (KDLoopSt P Q) → Option (String × ℕ)
  | .error e => some (e.printed, e.code)
  | .ok _ => none

/-- The loss `train_one_epoch_distillation` computes for one batch, as a
function of the loop state: `kdLossOf` applied to the student and teacher
forward passes on that batch. -/
def distillLossOf {P Q Inp : Type} (ops : TorchOps P Inp)
    (teacherForward : Bool → Q → List Inp → List (List ℚ)) (lib : KDLib)
    (criterion : List (List ℚ) → List ℕ → FloatVal) (alpha temp : ℚ)
    (st : KDLoopSt P Q) (b : List Inp × List ℕ) : FloatVal :=
  kdLossOf lib criterion alpha temp
    (ops.forward st.student.training st.student.params b.1)
    (teacherForward st.teacher.training st.teacher.params b.1) b.2

/-- The loss `evaluate` computes for one batch; the model parameters are
fixed for the whole loop, so it is a function of the batch alone. -/
def evalLossOf {P Inp : Type}
    (forward : Bool → P → List Inp → List (List ℚ))
    (criterion : List (List ℚ) → List ℕ → FloatVal) (p : P)
    (b : List Inp × List ℕ) : FloatVal :=
  criterion (forward false p b.1) b.2

/-- Per-batch top-k accuracy value of `evaluate`, as a function of the
batch. -/
def evalAccOf {P Inp : Type} (k : ℕ)
    (forward : Bool → P → List Inp → List (List ℚ)) (p : P)
    (b : List Inp × List ℕ) : ℚ :=
  accuracyTopk k (forward false p b.1) b.2

/-- Sum of a list of rationals. -/
def qSum : List ℚ → ℚ
  | [] => 0
  | x :: xs => x + qSum xs

/-- Sum of a list of naturals. -/
def nSum : List ℕ → ℕ
  | [] => 0
  | x :: xs => x + nSum xs

/-- Left-to-right float sum, in the order a meter accumulates its total. -/
def sumFV (l : List FloatVal) : FloatVal :=
  l.foldl FloatVal.add (FloatVal.fin 0)

section BasicLemmas

theorem FloatVal.mulQ_one (v : FloatVal) : FloatVal.mulQ 1 v = v := by
  cases v <;> simp [FloatVal.mulQ]

theorem FloatVal.mulQ_mulQ (a b : ℚ) (v : FloatVal) :
    FloatVal.mulQ a (FloatVal.mulQ b v) = FloatVal.mulQ (a * b) v := by
  cases v with
  | fin q => simp [FloatVal.mulQ, mul_assoc]
  | nan => simp [FloatVal.mulQ]
  | posInf =>
    rcases lt_trichotomy 0 b with hb | hb | hb
    · rcases lt_trichotomy 0 a with ha | ha | ha
      · simp [FloatVal.mulQ, hb, ha, mul_pos ha hb]
      · subst ha
        simp [FloatVal.mulQ, hb, lt_irrefl, zero_mul]
      · simp [FloatVal.mulQ, hb, ha, not_lt_of_gt ha,
          mul_neg_of_neg_of_pos ha hb,
          not_lt_of_gt (mul_neg_of_neg_of_pos ha hb)]
    · subst hb
      simp [FloatVal.mulQ, lt_irrefl, mul_zero]
    · rcases lt_trichotomy 0 a with ha | ha | ha
      · simp [FloatVal.mulQ, hb, ha, not_lt_of_gt hb,
          mul_neg_of_pos_of_neg ha hb,
          not_lt_of_gt (mul_neg_of_pos_of_neg ha hb)]
      · subst ha
        simp [FloatVal.mulQ, not_lt_of_gt hb, hb, lt_irrefl, zero_mul]
      · simp [FloatVal.mulQ, hb, ha, not_lt_of_gt hb, not_lt_of_gt ha,
          mul_pos_of_neg_of_neg ha hb]
  | negInf =>
    rcases lt_trichotomy 0 b with hb | hb | hb
    · rcases lt_trichotomy 0 a with ha | ha | ha
      · simp [FloatVal.mulQ, hb, ha, mul_pos ha hb]
      · subst ha
        simp [FloatVal.mulQ, hb, lt_irrefl, zero_mul]
      · simp [FloatVal.mulQ, hb, ha, not_lt_of_gt ha,
          mul_neg_of_neg_of_pos ha hb,
          not_lt_of_gt (mul_neg_of_neg_of_pos ha hb)]
    · subst hb
      simp [FloatVal.mulQ, lt_irrefl, mul_zero]
    · rcases lt_trichotomy 0 a with ha | ha | ha
      · simp [FloatVal.mulQ, hb, ha, not_lt_of_gt hb,
          mul_neg_of_pos_of_neg ha hb,
          not_lt_of_gt (mul_neg_of_pos_of_neg ha hb)]
      · subst ha
        simp [FloatVal.mulQ, not_lt_of_gt hb, hb, lt_irrefl, zero_mul]
      · simp [FloatVal.mulQ, hb, ha, not_lt_of_gt hb, not_lt_of_gt ha,
          mul_pos_of_neg_of_neg ha hb]

theorem MLog.lookup_mapUpdate (log : MLog) (name : String) (v : FloatVal)
    (n : ℕ) :
    (log.map (fun p => if p.1 = name then (p.1, p.2.update v n) else p)).lookup
        name
      = (log.lookup name).map (fun m => m.update v n) := by
  induction log with
  | nil => rfl
  | cons hd tl ih =>
    obtain ⟨k, m⟩ := hd
    simp only [List.map_cons]
    by_cases hk : k = name
    · subst hk
      rw [if_pos rfl]
      simp [List.lookup, ih]
    · rw [if_neg hk]
      have hne : (name == k) = false := by
        simp [Ne.symm hk]
      simp [List.lookup, hne, ih]

theorem MLog.lookup_mapUpdate_ne (log : MLog) (name name2 : String)
    (v : FloatVal) (n : ℕ) (h : name2 ≠ name) :
    (log.map (fun p => if p.1 = name then (p.1, p.2.update v n) else p)).lookup
        name2
      = log.lookup name2 := by
  induction log with
  | nil => rfl
  | cons hd tl ih =>
    obtain ⟨k, m⟩ := hd
    simp only [List.map_cons]
    by_cases hk : k = name
    · subst hk
      rw [if_pos rfl]
      have hne : (name2 == k) = false := by
        simp [h]
      simp [List.lookup, hne, ih]
    · rw [if_neg hk]
      by_cases h2 : name2 = k
      · subst h2
        simp [List.lookup]
      · have hne : (name2 == k) = false := by
          simp [h2]
        simp [List.lookup, hne, ih]

theorem MLog.lookup_append_of_none (l1 l2 : MLog) (name : String)
    (h : l1.lookup name = none) :
    (l1 ++ l2).lookup name = l2.lookup name := by
  induction l1 with
  | nil => rfl
  | cons hd tl ih =>
    obtain ⟨k, m⟩ := hd
    by_cases h2 : name = k
    · subst h2
      simp [List.lookup] at h
    · have hne : (name == k) = false := by
        simp [h2]
      simp only [List.cons_append, List.lookup, hne] at h ⊢
      exact ih h

theorem MLog.lookup_append_single_ne (log : MLog) (name name2 : String)
    (m0 : Meter) (h : name2 ≠ name) :
    (log ++ [(name, m0)]).lookup name2 = log.lookup name2 := by
  induction log with
  | nil =>
    have hne : (name2 == name) = false := by
      simp [h]
    simp [List.lookup, hne]
  | cons hd tl ih =>
    obtain ⟨k, m⟩ := hd
    by_cases h2 : name2 = k
    · subst h2
      simp [List.lookup]
    · have hne : (name2 == k) = false := by
        simp [h2]
      simp only [List.cons_append, List.lookup, hne]
      exact ih

theorem MLog.find_update_self (log : MLog) (name : String) (v : FloatVal)
    (n : ℕ) :
    (log.update name v n).find name = (log.find name).update v n := by
  unfold MLog.update MLog.find
  by_cases hs : (log.lookup name).isSome = true
  · rw [if_pos hs]
    rw [MLog.lookup_mapUpdate]
    rcases h : log.lookup name with _ | m
    · rw [h] at hs
      simp at hs
    · simp
  · rw [if_neg hs]
    have h : log.lookup name = none := by
      rcases h : log.lookup name with _ | m
      · rfl
      · rw [h] at hs
        simp at hs
    rw [MLog.lookup_append_of_none log _ name h]
    simp [List.lookup, h]

theorem MLog.find_update_ne (log : MLog) (name name2 : String) (v : FloatVal)
    (n : ℕ) (h : name2 ≠ name) :
    (log.update name v n).find name2 = log.find name2 := by
  unfold MLog.update MLog.find
  by_cases hs : (log.lookup name).isSome = true
  · rw [if_pos hs]
    rw [MLog.lookup_mapUpdate_ne log name name2 v n h]
  · rw [if_neg hs]
    rw [MLog.lookup_append_single_ne log name name2 _ h]

theorem Meter.update_count (m : Meter) (v : FloatVal) (n : ℕ) :
    (m.update v n).count = m.count + n := rfl

theorem train_batch_ok {P Inp : Type} (ops : TorchOps P Inp)
    (criterion : List (List ℚ) → List ℕ → FloatVal) (st : LoopSt P)
    (b : List Inp × List ℕ)
    (h : (trainLossOf ops criterion st b).isFinite = true) :
    train_batch ops criterion st b = Except.ok
      { net := ⟨ops.optStep (ops.backward (ops.zeroGrad st.net.params) b.1
            b.2), st.net.training⟩
        mlog := st.mlog.update "loss" (trainLossOf ops criterion st b) 1
        total_correct := st.total_correct +
          countCorrect (ops.forward st.net.training st.net.params b.1) b.2
        total_samples := st.total_samples + b.2.length
        trace := st.trace ++
          [Event.modelForward st.net.training false,
           Event.lossComputed (trainLossOf ops criterion st b),
           Event.finiteCheck true, Event.zeroGradCall, Event.backwardCall,
           Event.optStepCall, Event.cudaSync,
           Event.meterUpdate "loss" (trainLossOf ops criterion st b) 1,
           Event.accCount
             (countCorrect (ops.forward st.net.training st.net.params b.1)
               b.2) b.2.length] } := by
  unfold trainLossOf at h
  simp only [train_batch]
  rw [if_pos h]
  simp [trainLossOf, h, List.append_assoc]

theorem train_batch_err {P Inp : Type} (ops : TorchOps P Inp)
    (criterion : List (List ℚ) → List ℕ → FloatVal) (st : LoopSt P)
    (b : List Inp × List ℕ)
    (h : (trainLossOf ops criterion st b).isFinite = false) :
    train_batch ops criterion st b = Except.error
      { printed := lossMsg (trainLossOf ops criterion st b)
        code := 1
        st := { st with trace := st.trace ++
          [Event.modelForward st.net.training false,
           Event.lossComputed (trainLossOf ops criterion st b),
           Event.finiteCheck false,
           Event.printLine (lossMsg (trainLossOf ops criterion st b)),
           Event.exitCalled 1] } } := by
  unfold trainLossOf at h
  simp only [train_batch]
  rw [if_neg (by simp [h])]
  simp [trainLossOf, h, List.append_assoc]

theorem distill_batch_ok {P Q Inp : Type} (ops : TorchOps P Inp)
    (teacherForward : Bool → Q → List Inp → List (List ℚ)) (lib : KDLib)
    (criterion : List (List ℚ) → List ℕ → FloatVal) (alpha temp : ℚ)
    (st : KDLoopSt P Q) (b : List Inp × List ℕ)
    (h : (distillLossOf ops teacherForward lib criterion alpha temp st
        b).isFinite = true) :
    distill_batch ops teacherForward lib criterion alpha temp st b = Except.ok
      { teacher := st.teacher
        student := ⟨ops.optStep (ops.backward (ops.zeroGrad st.student.params)
            b.1 b.2), st.student.training⟩
        mlog := st.mlog.update "loss"
          (distillLossOf ops teacherForward lib criterion alpha temp st b) 1
        total_correct := st.total_correct +
          countCorrect (ops.forward st.student.training st.student.params b.1)
            b.2
        total_samples := st.total_samples + b.2.length
        trace := st.trace ++
          [Event.modelForward st.student.training false,
           Event.teacherForward st.teacher.training true,
           Event.lossComputed
             (distillLossOf ops teacherForward lib criterion alpha temp st b),
           Event.finiteCheck true, Event.zeroGradCall, Event.backwardCall,
           Event.optStepCall, Event.cudaSync,
           Event.meterUpdate "loss"
             (distillLossOf ops teacherForward lib criterion alpha temp st b)
             1,
           Event.accCount
             (countCorrect
               (ops.forward st.student.training st.student.params b.1) b.2)
             b.2.length] } := by
  unfold distillLossOf at h
  simp only [distill_batch]
  rw [if_pos h]
  simp [distillLossOf, h, List.append_assoc]

theorem distill_batch_err {P Q Inp : Type} (ops : TorchOps P Inp)
    (teacherForward : Bool → Q → List Inp → List (List ℚ)) (lib : KDLib)
    (criterion : List (List ℚ) → List ℕ → FloatVal) (alpha temp : ℚ)
    (st : KDLoopSt P Q) (b : List Inp × List ℕ)
    (h : (distillLossOf ops teacherForward lib criterion alpha temp st
        b).isFinite = false) :
    distill_batch ops teacherForward lib criterion alpha temp st b =
      Except.error
      { printed := lossMsg
          (distillLossOf ops teacherForward lib criterion alpha temp st b)
        code := 1
        st := { st with trace := st.trace ++
          [Event.modelForward st.student.training false,
           Event.teacherForward st.teacher.training true,
           Event.lossComputed
             (distillLossOf ops teacherForward lib criterion alpha temp st b),
           Event.finiteCheck false,
           Event.printLine (lossMsg
             (distillLossOf ops teacherForward lib criterion alpha temp st b)),
           Event.exitCalled 1] } } := by
  unfold distillLossOf at h
  simp only [distill_batch]
  rw [if_neg (by simp [h])]
  simp [distillLossOf, h, List.append_assoc]

theorem eval_batch_eq {P Inp : Type}
    (forward : Bool → P → List Inp → List (List ℚ))
    (criterion : List (List ℚ) → List ℕ → FloatVal) (st : EvalSt P)
    (b : List Inp × List ℕ) :
    eval_batch forward criterion st b =
      { net := st.net
        mlog := ((st.mlog.update "loss"
            (criterion (forward st.net.training st.net.params b.1) b.2)
            1).update "acc1"
            (FloatVal.fin
              (accuracyTopk 1 (forward st.net.training st.net.params b.1)
                b.2)) b.1.length).update "acc5"
            (FloatVal.fin
              (accuracyTopk 5 (forward st.net.training st.net.params b.1)
                b.2)) b.1.length
        trace := st.trace ++
          [Event.modelForward st.net.training true,
           Event.lossComputed
             (criterion (forward st.net.training st.net.params b.1) b.2),
           Event.meterUpdate "loss"
             (criterion (forward st.net.training st.net.params b.1) b.2) 1,
           Event.meterUpdate "acc1"
             (FloatVal.fin
               (accuracyTopk 1 (forward st.net.training st.net.params b.1)
                 b.2)) b.1.length,
           Event.meterUpdate "acc5"
             (FloatVal.fin
               (accuracyTopk 5 (forward st.net.training st.net.params b.1)
                 b.2)) b.1.length] } := rfl

theorem traceCorrectSum_append (t1 t2 : List Event) :
    traceCorrectSum (t1 ++ t2) = traceCorrectSum t1 + traceCorrectSum t2 := by
  induction t1 with
  | nil => simp [traceCorrectSum]
  | cons e t ih =>
    cases e <;> (simp [traceCorrectSum, ih]; try omega)

theorem traceSamplesSum_append (t1 t2 : List Event) :
    traceSamplesSum (t1 ++ t2) = traceSamplesSum t1 + traceSamplesSum t2 := by
  induction t1 with
  | nil => simp [traceSamplesSum]
  | cons e t ih =>
    cases e <;> (simp [traceSamplesSum, ih]; try omega)

theorem foldTrain_ok_facts {P Inp : Type} (ops : TorchOps P Inp)
    (criterion : List (List ℚ) → List ℕ → FloatVal) :
    ∀ (dl : List (List Inp × List ℕ)) (st st2 : LoopSt P),
    foldTrain ops criterion st dl = Except.ok st2 →
    (st2.mlog.find "loss").count = (st.mlog.find "loss").count + dl.length ∧
    st2.trace.countP Event.isOptStep
      = st.trace.countP Event.isOptStep + dl.length ∧
    st2.total_correct + traceCorrectSum st.trace
      = st.total_correct + traceCorrectSum st2.trace ∧
    st2.total_samples + traceSamplesSum st.trace
      = st.total_samples + traceSamplesSum st2.trace ∧
    (st.trace.all Event.unitWeight = true →
      st2.trace.all Event.unitWeight = true) ∧
    st2.net.training = st.net.training := by
  intro dl
  induction dl with
  | nil =>
    intro st st2 h
    simp only [foldTrain] at h
    cases h
    simp
  | cons b bs ih =>
    intro st st2 h
    rcases hv : (trainLossOf ops criterion st b).isFinite with _ | _
    · rw [foldTrain, train_batch_err ops criterion st b hv] at h
      cases h
    · rw [foldTrain, train_batch_ok ops criterion st b hv] at h
      simp only [] at h
      obtain ⟨h1, h2, h3, h4, h5, h6⟩ := ih _ st2 h
      simp only [MLog.find_update_self, Meter.update_count,
        List.countP_append, List.all_append, traceCorrectSum_append,
        traceSamplesSum_append] at h1 h2 h3 h4 h5 h6
      refine ⟨?_, ?_, ?_, ?_, ?_, ?_⟩
      · rw [h1]
        simp [Nat.add_assoc, Nat.add_comm]
      · rw [h2]
        simp only [List.countP_cons, List.countP_nil, Event.isOptStep]
        simp [Event.isOptStep]
        omega
      · simp only [traceCorrectSum, traceSamplesSum] at h3 ⊢
        omega
      · simp only [traceCorrectSum, traceSamplesSum] at h4 ⊢
        omega
      · intro hall
        apply h5
        simp [hall, Event.unitWeight]
      · exact h6
theorem foldTrain_err_decomp {P Inp : Type} (ops : TorchOps P Inp)
    (criterion : List (List ℚ) → List ℕ → FloatVal) :
    ∀ (dl : List (List Inp × List ℕ)) (st : LoopSt P),
    (foldTrain ops criterion st dl).isOk = false →
    ∃ pre b post st1, dl = pre ++ b :: post ∧
      foldTrain ops criterion st pre = Except.ok st1 ∧
      (trainLossOf ops criterion st1 b).isFinite = false ∧
      foldTrain ops criterion st dl = train_batch ops criterion st1 b := by
  intro dl
  induction dl with
  | nil =>
    intro st h
    simp [foldTrain, Except.isOk, Except.toBool] at h
  | cons b bs ih =>
    intro st h
    rcases hv : (trainLossOf ops criterion st b).isFinite with _ | _
    · refine ⟨[], b, bs, st, rfl, rfl, hv, ?_⟩
      rw [foldTrain, train_batch_err ops criterion st b hv]
    · rw [foldTrain, train_batch_ok ops criterion st b hv] at h ⊢
      simp only [] at h ⊢
      obtain ⟨pre, b2, post, st1, hdl, hpre, hfin, heq⟩ := ih _ h
      refine ⟨b :: pre, b2, post, st1, by simp [hdl], ?_, hfin, heq⟩
      rw [foldTrain, train_batch_ok ops criterion st b hv]
      exact hpre

theorem foldDistill_ok_facts {P Q Inp : Type} (ops : TorchOps P Inp)
    (teacherForward : Bool → Q → List Inp → List (List ℚ)) (lib : KDLib)
    (criterion : List (List ℚ) → List ℕ → FloatVal) (alpha temp : ℚ) :
    ∀ (dl : List (List Inp × List ℕ)) (st st2 : KDLoopSt P Q),
    foldDistill ops teacherForward lib criterion alpha temp st dl
      = Except.ok st2 →
    st2.teacher = st.teacher ∧
    (st2.mlog.find "loss").count = (st.mlog.find "loss").count + dl.length ∧
    st2.trace.countP Event.isOptStep
      = st.trace.countP Event.isOptStep + dl.length ∧
    st2.total_correct + traceCorrectSum st.trace
      = st.total_correct + traceCorrectSum st2.trace ∧
    st2.total_samples + traceSamplesSum st.trace
      = st.total_samples + traceSamplesSum st2.trace ∧
    (st.trace.all Event.unitWeight = true →
      st2.trace.all Event.unitWeight = true) ∧
    (st.teacher.training = false → st.trace.all Event.teacherEvalNoGrad = true →
      st2.trace.all Event.teacherEvalNoGrad = true) ∧
    st2.student.training = st.student.training := by
  intro dl
  induction dl with
  | nil =>
    intro st st2 h
    simp only [foldDistill] at h
    cases h
    simp
  | cons b bs ih =>
    intro st st2 h
    rcases hv : (distillLossOf ops teacherForward lib criterion alpha temp st
        b).isFinite with _ | _
    · rw [foldDistill,
        distill_batch_err ops teacherForward lib criterion alpha temp st b
          hv] at h
      cases h
    · rw [foldDistill,
        distill_batch_ok ops teacherForward lib criterion alpha temp st b
          hv] at h
      simp only [] at h
      obtain ⟨h0, h1, h2, h3, h4, h5, h7, h8⟩ := ih _ st2 h
      simp only [MLog.find_update_self, Meter.update_count,
        List.countP_append, List.all_append, traceCorrectSum_append,
        traceSamplesSum_append] at h0 h1 h2 h3 h4 h5 h7 h8
      refine ⟨h0, ?_, ?_, ?_, ?_, ?_, ?_, h8⟩
      · rw [h1]
        simp [Nat.add_assoc, Nat.add_comm]
      · rw [h2]
        simp [Event.isOptStep]
        omega
      · simp only [traceCorrectSum, traceSamplesSum] at h3 ⊢
        omega
      · simp only [traceCorrectSum, traceSamplesSum] at h4 ⊢
        omega
      · intro hall
        apply h5
        simp [hall, Event.unitWeight]
      · intro htr hall
        apply h7 htr
        simp [hall, Event.teacherEvalNoGrad, htr]

theorem foldDistill_err_decomp {P Q Inp : Type} (ops : TorchOps P Inp)
    (teacherForward : Bool → Q → List Inp → List (List ℚ)) (lib : KDLib)
    (criterion : List (List ℚ) → List ℕ → FloatVal) (alpha temp : ℚ) :
    ∀ (dl : List (List Inp × List ℕ)) (st : KDLoopSt P Q),
    (foldDistill ops teacherForward lib criterion alpha temp st dl).isOk
      = false →
    ∃ pre b post st1, dl = pre ++ b :: post ∧
      foldDistill ops teacherForward lib criterion alpha temp st pre
        = Except.ok st1 ∧
      (distillLossOf ops teacherForward lib criterion alpha temp st1
        b).isFinite = false ∧
      foldDistill ops teacherForward lib criterion alpha temp st dl
        = distill_batch ops teacherForward lib criterion alpha temp st1 b := by
  intro dl
  induction dl with
  | nil =>
    intro st h
    simp [foldDistill, Except.isOk, Except.toBool] at h
  | cons b bs ih =>
    intro st h
    rcases hv : (distillLossOf ops teacherForward lib criterion alpha temp st
        b).isFinite with _ | _
    · refine ⟨[], b, bs, st, rfl, rfl, hv, ?_⟩
      rw [foldDistill,
        distill_batch_err ops teacherForward lib criterion alpha temp st b hv]
    · rw [foldDistill,
        distill_batch_ok ops teacherForward lib criterion alpha temp st b
          hv] at h ⊢
      simp only [] at h ⊢
      obtain ⟨pre, b2, post, st1, hdl, hpre, hfin, heq⟩ := ih _ h
      refine ⟨b :: pre, b2, post, st1, by simp [hdl], ?_, hfin, heq⟩
      rw [foldDistill,
        distill_batch_ok ops teacherForward lib criterion alpha temp st b hv]
      exact hpre

theorem evalFold_net {P Inp : Type}
    (forward : Bool → P → List Inp → List (List ℚ))
    (criterion : List (List ℚ) → List ℕ → FloatVal) :
    ∀ (dl : List (List Inp × List ℕ)) (st : EvalSt P),
    (dl.foldl (eval_batch forward criterion) st).net = st.net := by
  intro dl
  induction dl with
  | nil => intro st; rfl
  | cons b bs ih =>
    intro st
    rw [List.foldl_cons, ih]
    rfl

theorem evalFold_trace_all {P Inp : Type}
    (forward : Bool → P → List Inp → List (List ℚ))
    (criterion : List (List ℚ) → List ℕ → FloatVal) (p : Event → Bool)
    (hp1 : ∀ t : Bool, p (Event.modelForward t true) = true)
    (hp2 : ∀ v, p (Event.lossComputed v) = true)
    (hp3 : ∀ name v n, p (Event.meterUpdate name v n) = true) :
    ∀ (dl : List (List Inp × List ℕ)) (st : EvalSt P),
    st.trace.all p = true →
    ((dl.foldl (eval_batch forward criterion) st).trace.all p) = true := by
  intro dl
  induction dl with
  | nil => intro st h; exact h
  | cons b bs ih =>
    intro st h
    rw [List.foldl_cons]
    apply ih
    rw [eval_batch_eq]
    simp [List.all_append, h, hp1, hp2, hp3]

theorem evalFold_meters {P Inp : Type}
    (forward : Bool → P → List Inp → List (List ℚ))
    (criterion : List (List ℚ) → List ℕ → FloatVal) :
    ∀ (dl : List (List Inp × List ℕ)) (st : EvalSt P),
    ((dl.foldl (eval_batch forward criterion) st).mlog.find "loss"
        = dl.foldl (fun m b =>
            m.update (criterion (forward st.net.training st.net.params b.1)
              b.2) 1) (st.mlog.find "loss")) ∧
    ((dl.foldl (eval_batch forward criterion) st).mlog.find "acc1"
        = dl.foldl (fun m b =>
            m.update (FloatVal.fin
              (accuracyTopk 1 (forward st.net.training st.net.params b.1)
                b.2)) b.1.length) (st.mlog.find "acc1")) ∧
    ((dl.foldl (eval_batch forward criterion) st).mlog.find "acc5"
        = dl.foldl (fun m b =>
            m.update (FloatVal.fin
              (accuracyTopk 5 (forward st.net.training st.net.params b.1)
                b.2)) b.1.length) (st.mlog.find "acc5")) := by
  intro dl
  induction dl with
  | nil => intro st; exact ⟨rfl, rfl, rfl⟩
  | cons b bs ih =>
    intro st
    rw [List.foldl_cons, List.foldl_cons, List.foldl_cons, List.foldl_cons]
    obtain ⟨ih1, ih2, ih3⟩ := ih (eval_batch forward criterion st b)
    refine ⟨?_, ?_, ?_⟩
    · rw [ih1]
      simp only [eval_batch_eq]
      rw [MLog.find_update_ne _ _ _ _ _ (by decide),
        MLog.find_update_ne _ _ _ _ _ (by decide), MLog.find_update_self]
    · rw [ih2]
      simp only [eval_batch_eq]
      rw [MLog.find_update_ne _ _ _ _ _ (by decide), MLog.find_update_self,
        MLog.find_update_ne _ _ _ _ _ (by decide)]
    · rw [ih3]
      simp only [eval_batch_eq]
      rw [MLog.find_update_self, MLog.find_update_ne _ _ _ _ _ (by decide),
        MLog.find_update_ne _ _ _ _ _ (by decide)]

theorem meter_foldl {β : Type} (g : β → FloatVal) (nn : β → ℕ) :
    ∀ (dl : List β) (A : Meter),
    dl.foldl (fun m b => m.update (g b) (nn b)) A =
      ⟨(dl.map (fun b => FloatVal.mulQ ((nn b : ℕ) : ℚ) (g b))).foldl
          FloatVal.add A.total,
        A.count + nSum (dl.map nn)⟩ := by
  intro dl
  induction dl with
  | nil =>
    intro A
    simp [nSum]
  | cons b bs ih =>
    intro A
    rw [List.foldl_cons, ih]
    simp only [List.map_cons, List.foldl_cons, nSum, Meter.update]
    congr 1
    omega

theorem foldl_add_fins (l : List ℚ) :
    ∀ q0 : ℚ, (l.map FloatVal.fin).foldl FloatVal.add (FloatVal.fin q0)
      = FloatVal.fin (q0 + qSum l) := by
  induction l with
  | nil => intro q0; simp [qSum]
  | cons x xs ih =>
    intro q0
    rw [List.map_cons, List.foldl_cons]
    show (xs.map FloatVal.fin).foldl FloatVal.add (FloatVal.fin (q0 + x)) = _
    rw [ih, qSum]
    rw [add_assoc]

theorem nSum_ones {β : Type} (dl : List β) :
    nSum (dl.map (fun _ => 1)) = dl.length := by
  induction dl with
  | nil => rfl
  | cons b bs ih =>
    rw [List.map_cons, nSum, ih, List.length_cons]
    omega

theorem train_one_epoch_shape {P Inp : Type} (ops : TorchOps P Inp)
    (criterion : List (List ℚ) → List ℕ → FloatVal) (net : Net P)
    (dl : List (List Inp × List ℕ))
    (h : (train_one_epoch ops criterion net dl).isOk = true) :
    foldTrain ops criterion ⟨⟨net.params, true⟩, [], 0, 0, []⟩ dl
        = Except.ok (finalLoopSt (train_one_epoch ops criterion net dl)) ∧
    (finalLoopSt (train_one_epoch ops criterion net dl)).total_samples ≠ 0 ∧
    okResult (train_one_epoch ops criterion net dl)
      = (finalLoopSt (train_one_epoch ops criterion net dl)).mlog.resultDict ∧
    okAccuracyPct (train_one_epoch ops criterion net dl)
      = 100 * ((finalLoopSt (train_one_epoch ops criterion net
            dl)).total_correct : ℚ)
          / ((finalLoopSt (train_one_epoch ops criterion net
            dl)).total_samples : ℚ) := by
  rcases hf : foldTrain ops criterion ⟨⟨net.params, true⟩, [], 0, 0, []⟩ dl
    with e | stF
  · exfalso
    simp only [train_one_epoch] at h
    rw [hf] at h
    simp [Except.isOk, Except.toBool] at h
  · by_cases hts : stF.total_samples = 0
    · exfalso
      simp only [train_one_epoch] at h
      rw [hf] at h
      simp only [] at h
      rw [if_pos hts] at h
      simp [Except.isOk, Except.toBool] at h
    · have he : train_one_epoch ops criterion net dl = Except.ok
          ⟨stF.mlog.resultDict,
            100 * (stF.total_correct : ℚ) / (stF.total_samples : ℚ), stF⟩ := by
        simp only [train_one_epoch]
        rw [hf]
        simp only []
        rw [if_neg hts]
      rw [he]
      exact ⟨rfl, hts, rfl, rfl⟩

theorem kd_one_epoch_shape {P Q Inp : Type} (ops : TorchOps P Inp)
    (teacherForward : Bool → Q → List Inp → List (List ℚ)) (lib : KDLib)
    (criterion : List (List ℚ) → List ℕ → FloatVal) (teacher : Net Q)
    (student : Net P) (dl : List (List Inp × List ℕ)) (alpha temp : ℚ)
    (h : (train_one_epoch_distillation ops teacherForward lib criterion
        teacher student dl alpha temp).isOk = true) :
    foldDistill ops teacherForward lib criterion alpha temp
        ⟨⟨teacher.params, false⟩, ⟨student.params, true⟩, [], 0, 0, []⟩ dl
      = Except.ok (kdOutcomeSt (train_one_epoch_distillation ops
          teacherForward lib criterion teacher student dl alpha temp)) ∧
    (kdOutcomeSt (train_one_epoch_distillation ops teacherForward lib
        criterion teacher student dl alpha temp)).total_samples ≠ 0 ∧
    kdOkResult (train_one_epoch_distillation ops teacherForward lib criterion
        teacher student dl alpha temp)
      = (kdOutcomeSt (train_one_epoch_distillation ops teacherForward lib
          criterion teacher student dl alpha temp)).mlog.resultDict ∧
    kdOkAccuracyPct (train_one_epoch_distillation ops teacherForward lib
        criterion teacher student dl alpha temp)
      = 100 * ((kdOutcomeSt (train_one_epoch_distillation ops teacherForward
            lib criterion teacher student dl alpha temp)).total_correct : ℚ)
          / ((kdOutcomeSt (train_one_epoch_distillation ops teacherForward
            lib criterion teacher student dl alpha temp)).total_samples :
            ℚ) := by
  rcases hf : foldDistill ops teacherForward lib criterion alpha temp
      ⟨⟨teacher.params, false⟩, ⟨student.params, true⟩, [], 0, 0, []⟩ dl
    with e | stF
  · exfalso
    simp only [train_one_epoch_distillation] at h
    rw [hf] at h
    simp [Except.isOk, Except.toBool] at h
  · by_cases hts : stF.total_samples = 0
    · exfalso
      simp only [train_one_epoch_distillation] at h
      rw [hf] at h
      simp only [] at h
      rw [if_pos hts] at h
      simp [Except.isOk, Except.toBool] at h
    · have he : train_one_epoch_distillation ops teacherForward lib criterion
          teacher student dl alpha temp = Except.ok
          ⟨stF.mlog.resultDict,
            100 * (stF.total_correct : ℚ) / (stF.total_samples : ℚ), stF⟩ := by
        simp only [train_one_epoch_distillation]
        rw [hf]
        simp only []
        rw [if_neg hts]
      rw [he]
      exact ⟨rfl, hts, rfl, rfl⟩

end BasicLemmas

/-- C1: In `train_one_epoch_distillation`, for every batch, the loss the loop
computes (the value it finiteness-checks, logs, and — when finite — passes to
`backward`, recorded in the `lossComputed` trace event) equals
`alpha * criterion(student_outputs, targets) + (1 - alpha) * temp^2 *
KLDivLoss_batchmean(log_softmax(student_outputs / temp, dim=1),
softmax(teacher_outputs / temp, dim=1))`, the standard
supervised-plus-distillation composition; the Python defaults are
`alpha = 0.5` and `temp = 2.0`. -/
theorem claim1_distill_loss_is_spec_composition {P Q Inp : Type}
    (ops : TorchOps P Inp)
    (teacherForward : Bool → Q → List Inp → List (List ℚ)) (lib : KDLib)
    (criterion : List (List ℚ) → List ℕ → FloatVal) (alpha temp : ℚ)
    (st : KDLoopSt P Q) (b : List Inp × List ℕ) :
    distillLossOf ops teacherForward lib criterion alpha temp st b
      = specDistillLoss lib criterion alpha temp
          (ops.forward st.student.training st.student.params b.1)
          (teacherForward st.teacher.training st.teacher.params b.1) b.2 ∧
    alphaDefault = 1 / 2 ∧ tempDefault = 2 ∧
    (st.trace ++
        [Event.modelForward st.student.training false,
         Event.teacherForward st.teacher.training true,
         Event.lossComputed
           (distillLossOf ops teacherForward lib criterion alpha temp st b)])
      <+: (kdStepSt
        (distill_batch ops teacherForward lib criterion alpha temp st
          b)).trace := by
  refine ⟨?_, rfl, rfl, ?_⟩
  · have hsc : (1 - alpha) * (temp * temp) = (1 - alpha) * temp ^ 2 := by
      ring
    simp only [distillLossOf, kdLossOf, specDistillLoss]
    rw [FloatVal.mulQ_mulQ, hsc]
  · rcases hv : (distillLossOf ops teacherForward lib criterion alpha temp st
        b).isFinite with _ | _
    · rw [distill_batch_err ops teacherForward lib criterion alpha temp st b
        hv]
      exact ⟨[Event.finiteCheck false,
        Event.printLine (lossMsg
          (distillLossOf ops teacherForward lib criterion alpha temp st b)),
        Event.exitCalled 1], by simp [kdStepSt, List.append_assoc]⟩
    · rw [distill_batch_ok ops teacherForward lib criterion alpha temp st b
        hv]
      exact ⟨[Event.finiteCheck true, Event.zeroGradCall, Event.backwardCall,
        Event.optStepCall, Event.cudaSync,
        Event.meterUpdate "loss"
          (distillLossOf ops teacherForward lib criterion alpha temp st b) 1,
        Event.accCount
          (countCorrect (ops.forward st.student.training st.student.params
            b.1) b.2) b.2.length], by simp [kdStepSt, List.append_assoc]⟩

theorem evalMeter_loss_aux {P Inp : Type}
    (forward : Bool → P → List Inp → List (List ℚ))
    (criterion : List (List ℚ) → List ℕ → FloatVal) (p : P) :
    ∀ (dl : List (List Inp × List ℕ)) (A : Meter),
    dl.foldl (fun m b => m.update (evalLossOf forward criterion p b) 1) A
      = ⟨(dl.map (evalLossOf forward criterion p)).foldl FloatVal.add A.total,
          A.count + dl.length⟩ := by
  intro dl
  induction dl with
  | nil => intro A; simp
  | cons b bs ih =>
    intro A
    rw [List.foldl_cons, ih]
    simp only [List.map_cons, List.foldl_cons, Meter.update, Nat.cast_one,
      FloatVal.mulQ_one, List.length_cons]
    congr 1
    omega

theorem evalMeter_loss_closed {P Inp : Type}
    (forward : Bool → P → List Inp → List (List ℚ))
    (criterion : List (List ℚ) → List ℕ → FloatVal) (p : P)
    (dl : List (List Inp × List ℕ)) :
    dl.foldl (fun m b => m.update (evalLossOf forward criterion p b) 1)
        Meter.empty
      = ⟨sumFV (dl.map (evalLossOf forward criterion p)), dl.length⟩ := by
  simpa [sumFV, Meter.empty] using
    evalMeter_loss_aux forward criterion p dl Meter.empty

theorem evalMeter_acc_aux {P Inp : Type} (k : ℕ)
    (forward : Bool → P → List Inp → List (List ℚ)) (p : P) :
    ∀ (dl : List (List Inp × List ℕ)) (q0 : ℚ) (c0 : ℕ),
    dl.foldl (fun m b =>
        m.update (FloatVal.fin (evalAccOf k forward p b)) b.1.length)
        (⟨FloatVal.fin q0, c0⟩ : Meter)
      = (⟨FloatVal.fin (q0 + qSum (dl.map (fun b =>
            ((b.1.length : ℕ) : ℚ) * evalAccOf k forward p b))),
          c0 + nSum (dl.map (fun b => b.1.length))⟩ : Meter) := by
  intro dl
  induction dl with
  | nil =>
    intro q0 c0
    simp [qSum, nSum]
  | cons b bs ih =>
    intro q0 c0
    simp only [List.foldl_cons]
    have hup : (⟨FloatVal.fin q0, c0⟩ : Meter).update
        (FloatVal.fin (evalAccOf k forward p b)) b.1.length
        = ⟨FloatVal.fin (q0 + (b.1.length : ℚ) * evalAccOf k forward p b),
            c0 + b.1.length⟩ := rfl
    rw [hup, ih]
    simp only [List.map_cons, qSum, nSum]
    congr 1
    · rw [add_assoc]
    · omega

theorem evalMeter_acc_closed {P Inp : Type} (k : ℕ)
    (forward : Bool → P → List Inp → List (List ℚ)) (p : P)
    (dl : List (List Inp × List ℕ)) :
    dl.foldl (fun m b =>
        m.update (FloatVal.fin (evalAccOf k forward p b)) b.1.length)
        Meter.empty
      = ⟨FloatVal.fin (qSum (dl.map (fun b =>
            ((b.1.length : ℕ) : ℚ) * evalAccOf k forward p b))),
          nSum (dl.map (fun b => b.1.length))⟩ := by
  simpa using evalMeter_acc_aux k forward p dl 0 0

/-- C2: In both training loops, a batch whose loss is not finite makes the
loop print `"Loss is ..., stopping training"` and exit with status 1, with no
`zero_grad`, `backward`, `optimizer.step`, or metric update for that batch
(the only events added after the finiteness check are the print and the
exit); a batch with a finite loss is processed and the loop continues with
the next batch.  The `evaluate` loop performs no finiteness check and never
exits. -/
theorem claim2_nonfinite_loss_fatal_abort :
    (∀ (P Inp : Type) (ops : TorchOps P Inp)
        (criterion : List (List ℚ) → List ℕ → FloatVal) (st : LoopSt P)
        (b : List Inp × List ℕ),
      (trainLossOf ops criterion st b).isFinite = false →
      train_batch ops criterion st b = Except.error
        { printed := lossMsg (trainLossOf ops criterion st b)
          code := 1
          st := { st with trace := st.trace ++
            [Event.modelForward st.net.training false,
             Event.lossComputed (trainLossOf ops criterion st b),
             Event.finiteCheck false,
             Event.printLine (lossMsg (trainLossOf ops criterion st b)),
             Event.exitCalled 1] } }) ∧
    (∀ (P Inp : Type) (ops : TorchOps P Inp)
        (criterion : List (List ℚ) → List ℕ → FloatVal) (st : LoopSt P)
        (b : List Inp × List ℕ),
      (trainLossOf ops criterion st b).isFinite = true →
      (train_batch ops criterion st b).isOk = true ∧
      ∀ bs, foldTrain ops criterion st (b :: bs)
        = foldTrain ops criterion (stepSt (train_batch ops criterion st b))
            bs) ∧
    (∀ (P Q Inp : Type) (ops : TorchOps P Inp)
        (teacherForward : Bool → Q → List Inp → List (List ℚ)) (lib : KDLib)
        (criterion : List (List ℚ) → List ℕ → FloatVal) (alpha temp : ℚ)
        (st : KDLoopSt P Q) (b : List Inp × List ℕ),
      (distillLossOf ops teacherForward lib criterion alpha temp st
          b).isFinite = false →
      distill_batch ops teacherForward lib criterion alpha temp st b
        = Except.error
        { printed := lossMsg
            (distillLossOf ops teacherForward lib criterion alpha temp st b)
          code := 1
          st := { st with trace := st.trace ++
            [Event.modelForward st.student.training false,
             Event.teacherForward st.teacher.training true,
             Event.lossComputed
               (distillLossOf ops teacherForward lib criterion alpha temp st
                 b),
             Event.finiteCheck false,
             Event.printLine (lossMsg
               (distillLossOf ops teacherForward lib criterion alpha temp st
                 b)),
             Event.exitCalled 1] } }) ∧
    (∀ (P Q Inp : Type) (ops : TorchOps P Inp)
        (teacherForward : Bool → Q → List Inp → List (List ℚ)) (lib : KDLib)
        (criterion : List (List ℚ) → List ℕ → FloatVal) (alpha temp : ℚ)
        (st : KDLoopSt P Q) (b : List Inp × List ℕ),
      (distillLossOf ops teacherForward lib criterion alpha temp st
          b).isFinite = true →
      (distill_batch ops teacherForward lib criterion alpha temp st
          b).isOk = true ∧
      ∀ bs, foldDistill ops teacherForward lib criterion alpha temp st
          (b :: bs)
        = foldDistill ops teacherForward lib criterion alpha temp
            (kdStepSt (distill_batch ops teacherForward lib criterion alpha
              temp st b)) bs) ∧
    (∀ (P Inp : Type) (dl : List (List Inp × List ℕ))
        (forward : Bool → P → List Inp → List (List ℚ))
        (criterion : List (List ℚ) → List ℕ → FloatVal) (net : Net P),
      ((evaluate dl forward criterion net).finalSt.trace.all
        (fun e => !e.isFiniteCheck && !e.isExit)) = true) := by
  refine ⟨?_, ?_, ?_, ?_, ?_⟩
  · intro P Inp ops criterion st b h
    exact train_batch_err ops criterion st b h
  · intro P Inp ops criterion st b h
    constructor
    · rw [train_batch_ok ops criterion st b h]
      rfl
    · intro bs
      rw [foldTrain, train_batch_ok ops criterion st b h]
      rfl
  · intro P Q Inp ops teacherForward lib criterion alpha temp st b h
    exact distill_batch_err ops teacherForward lib criterion alpha temp st b h
  · intro P Q Inp ops teacherForward lib criterion alpha temp st b h
    constructor
    · rw [distill_batch_ok ops teacherForward lib criterion alpha temp st b h]
      rfl
    · intro bs
      rw [foldDistill,
        distill_batch_ok ops teacherForward lib criterion alpha temp st b h]
      rfl
  · intro P Inp dl forward criterion net
    simp only [evaluate]
    apply evalFold_trace_all
    · intro t
      rfl
    · intro v
      rfl
    · intro name v n
      rfl
    · rfl

/-- Witness for C2 at concrete inputs: a criterion returning NaN makes the
batch abort with the printed message and status 1, a criterion returning 1
is processed normally, and in both cases the evaluated conclusions follow by
applying the theorem. -/
theorem claim2_nonfinite_loss_fatal_abort_witness :
    (trainLossOf unitOps nanCrit stA batch0).isFinite = false ∧
    train_batch unitOps nanCrit stA batch0 = Except.error
      { printed := lossMsg (trainLossOf unitOps nanCrit stA batch0)
        code := 1
        st := { stA with trace := stA.trace ++
          [Event.modelForward stA.net.training false,
           Event.lossComputed (trainLossOf unitOps nanCrit stA batch0),
           Event.finiteCheck false,
           Event.printLine (lossMsg (trainLossOf unitOps nanCrit stA batch0)),
           Event.exitCalled 1] } } ∧
    (trainLossOf unitOps oneCrit stA batch0).isFinite = true ∧
    (train_batch unitOps oneCrit stA batch0).isOk = true ∧
    (distillLossOf unitOps teacherFwd0 lib0 nanCrit (1 / 2) 2 kdStA
      batch0).isFinite = false ∧
    distill_batch unitOps teacherFwd0 lib0 nanCrit (1 / 2) 2 kdStA batch0
      = Except.error
      { printed := lossMsg
          (distillLossOf unitOps teacherFwd0 lib0 nanCrit (1 / 2) 2 kdStA
            batch0)
        code := 1
        st := { kdStA with trace := kdStA.trace ++
          [Event.modelForward kdStA.student.training false,
           Event.teacherForward kdStA.teacher.training true,
           Event.lossComputed
             (distillLossOf unitOps teacherFwd0 lib0 nanCrit (1 / 2) 2 kdStA
               batch0),
           Event.finiteCheck false,
           Event.printLine (lossMsg
             (distillLossOf unitOps teacherFwd0 lib0 nanCrit (1 / 2) 2 kdStA
               batch0)),
           Event.exitCalled 1] } } ∧
    (distillLossOf unitOps teacherFwd0 lib0 oneCrit (1 / 2) 2 kdStA
      batch0).isFinite = true ∧
    (distill_batch unitOps teacherFwd0 lib0 oneCrit (1 / 2) 2 kdStA
      batch0).isOk = true ∧
    ((evaluate [batch0] unitOps.forward oneCrit net0).finalSt.trace.all
      (fun e => !e.isFiniteCheck && !e.isExit)) = true :=
  ⟨by decide,
   claim2_nonfinite_loss_fatal_abort.1 ℕ Unit unitOps nanCrit stA batch0
     (by decide),
   by decide,
   (claim2_nonfinite_loss_fatal_abort.2.1 ℕ Unit unitOps oneCrit stA batch0
     (by decide)).1,
   by decide,
   claim2_nonfinite_loss_fatal_abort.2.2.1 ℕ ℕ Unit unitOps teacherFwd0 lib0
     nanCrit (1 / 2) 2 kdStA batch0 (by decide),
   by decide,
   (claim2_nonfinite_loss_fatal_abort.2.2.2.1 ℕ ℕ Unit unitOps teacherFwd0
     lib0 oneCrit (1 / 2) 2 kdStA batch0 (by decide)).1,
   claim2_nonfinite_loss_fatal_abort.2.2.2.2 ℕ Unit [batch0] unitOps.forward
     oneCrit net0⟩

/-- C3: Each of the three loops returns the dictionary mapping each tracked
meter name to that meter's global average (`total / count`).  In `evaluate`
the `acc1` and `acc5` meters are updated weighted by the batch size, so their
totals are batch-size-weighted sums and their counts the number of samples;
every `loss` meter is updated once per batch with unit weight, so its count
is the number of batches (a per-batch, not per-sample, average). -/
theorem claim3_metrics_are_global_averages :
    (∀ (log : MLog), log.resultDict
        = log.map (fun p => (p.1, p.2.global_avg))) ∧
    (∀ (P Inp : Type) (ops : TorchOps P Inp)
        (criterion : List (List ℚ) → List ℕ → FloatVal) (net : Net P)
        (dl : List (List Inp × List ℕ)),
      (train_one_epoch ops criterion net dl).isOk = true →
      okResult (train_one_epoch ops criterion net dl)
        = (finalLoopSt (train_one_epoch ops criterion net
            dl)).mlog.resultDict ∧
      ((finalLoopSt (train_one_epoch ops criterion net dl)).mlog.find
        "loss").count = dl.length ∧
      (finalLoopSt (train_one_epoch ops criterion net dl)).trace.all
        Event.unitWeight = true) ∧
    (∀ (P Q Inp : Type) (ops : TorchOps P Inp)
        (teacherForward : Bool → Q → List Inp → List (List ℚ)) (lib : KDLib)
        (criterion : List (List ℚ) → List ℕ → FloatVal) (teacher : Net Q)
        (student : Net P) (dl : List (List Inp × List ℕ)) (alpha temp : ℚ),
      (train_one_epoch_distillation ops teacherForward lib criterion teacher
        student dl alpha temp).isOk = true →
      kdOkResult (train_one_epoch_distillation ops teacherForward lib
          criterion teacher student dl alpha temp)
        = (kdOutcomeSt (train_one_epoch_distillation ops teacherForward lib
            criterion teacher student dl alpha temp)).mlog.resultDict ∧
      ((kdOutcomeSt (train_one_epoch_distillation ops teacherForward lib
          criterion teacher student dl alpha temp)).mlog.find
        "loss").count = dl.length ∧
      (kdOutcomeSt (train_one_epoch_distillation ops teacherForward lib
          criterion teacher student dl alpha temp)).trace.all
        Event.unitWeight = true) ∧
    (∀ (P Inp : Type) (dl : List (List Inp × List ℕ))
        (forward : Bool → P → List Inp → List (List ℚ))
        (criterion : List (List ℚ) → List ℕ → FloatVal) (net : Net P),
      (evaluate dl forward criterion net).result
        = (evaluate dl forward criterion net).finalSt.mlog.resultDict ∧
      (evaluate dl forward criterion net).finalSt.mlog.find "loss"
        = ⟨sumFV (dl.map (evalLossOf forward criterion net.params)),
            dl.length⟩ ∧
      (evaluate dl forward criterion net).finalSt.mlog.find "acc1"
        = ⟨FloatVal.fin (qSum (dl.map (fun b =>
              ((b.1.length : ℕ) : ℚ) * evalAccOf 1 forward net.params b))),
            nSum (dl.map (fun b => b.1.length))⟩ ∧
      (evaluate dl forward criterion net).finalSt.mlog.find "acc5"
        = ⟨FloatVal.fin (qSum (dl.map (fun b =>
              ((b.1.length : ℕ) : ℚ) * evalAccOf 5 forward net.params b))),
            nSum (dl.map (fun b => b.1.length))⟩) := by
  refine ⟨fun log => rfl, ?_, ?_, ?_⟩
  · intro P Inp ops criterion net dl h
    obtain ⟨hfold, hts, hres, hacc⟩ :=
      train_one_epoch_shape ops criterion net dl h
    obtain ⟨h1, h2, h3, h4, h5, h6⟩ :=
      foldTrain_ok_facts ops criterion dl _ _ hfold
    refine ⟨hres, ?_, h5 rfl⟩
    rw [h1]
    simp [MLog.find, Meter.empty]
  · intro P Q Inp ops teacherForward lib criterion teacher student dl alpha
      temp h
    obtain ⟨hfold, hts, hres, hacc⟩ :=
      kd_one_epoch_shape ops teacherForward lib criterion teacher student dl
        alpha temp h
    obtain ⟨h0, h1, h2, h3, h4, h5, h7, h8⟩ :=
      foldDistill_ok_facts ops teacherForward lib criterion alpha temp dl _ _
        hfold
    refine ⟨hres, ?_, h5 rfl⟩
    rw [h1]
    simp [MLog.find, Meter.empty]
  · intro P Inp dl forward criterion net
    refine ⟨rfl, ?_, ?_, ?_⟩
    · simp only [evaluate]
      rw [(evalFold_meters forward criterion dl
        ⟨⟨net.params, false⟩, [], []⟩).1]
      show List.foldl
        (fun m b => m.update (evalLossOf forward criterion net.params b) 1)
        Meter.empty dl = _
      exact evalMeter_loss_closed forward criterion net.params dl
    · simp only [evaluate]
      rw [(evalFold_meters forward criterion dl
        ⟨⟨net.params, false⟩, [], []⟩).2.1]
      show List.foldl
        (fun m b => m.update (FloatVal.fin (evalAccOf 1 forward net.params b))
          b.1.length) Meter.empty dl = _
      exact evalMeter_acc_closed 1 forward net.params dl
    · simp only [evaluate]
      rw [(evalFold_meters forward criterion dl
        ⟨⟨net.params, false⟩, [], []⟩).2.2]
      show List.foldl
        (fun m b => m.update (FloatVal.fin (evalAccOf 5 forward net.params b))
          b.1.length) Meter.empty dl = _
      exact evalMeter_acc_closed 5 forward net.params dl

/-- Witness for C3 at concrete inputs: a one-batch training epoch and a
one-batch distillation epoch return normally and the evaluated conclusions
follow by applying the theorem. -/
theorem claim3_metrics_are_global_averages_witness :
    (train_one_epoch unitOps oneCrit net0 [batch0]).isOk = true ∧
    okResult (train_one_epoch unitOps oneCrit net0 [batch0])
      = (finalLoopSt (train_one_epoch unitOps oneCrit net0
          [batch0])).mlog.resultDict ∧
    ((finalLoopSt (train_one_epoch unitOps oneCrit net0 [batch0])).mlog.find
      "loss").count = 1 ∧
    (train_one_epoch_distillation unitOps teacherFwd0 lib0 oneCrit
      (⟨7, true⟩ : Net ℕ) net0 [batch0] (1 / 2) 2).isOk = true ∧
    ((kdOutcomeSt (train_one_epoch_distillation unitOps teacherFwd0 lib0
      oneCrit (⟨7, true⟩ : Net ℕ) net0 [batch0] (1 / 2) 2)).mlog.find
      "loss").count = 1 :=
  ⟨by decide,
   (claim3_metrics_are_global_averages.2.1 ℕ Unit unitOps oneCrit net0
     [batch0] (by decide)).1,
   (claim3_metrics_are_global_averages.2.1 ℕ Unit unitOps oneCrit net0
     [batch0] (by decide)).2.1,
   by decide,
   (claim3_metrics_are_global_averages.2.2.1 ℕ ℕ Unit unitOps teacherFwd0
     lib0 oneCrit (⟨7, true⟩ : Net ℕ) net0 [batch0] (1 / 2) 2
     (by decide)).2.1⟩

/-- C4: In both training loops a successfully processed batch performs, in
order: the forward pass, the loss computation, the finiteness check,
`optimizer.zero_grad()`, `loss.backward()`, `optimizer.step()` (then the
synchronize, metric update and accuracy count) — gradients are zeroed before
each backward pass and the parameter update applies `optStep` after
`backward` after `zeroGrad`; over a whole epoch, `optimizer.step` runs
exactly once per batch. -/
theorem claim4_per_batch_step_order :
    (∀ (P Inp : Type) (ops : TorchOps P Inp)
        (criterion : List (List ℚ) → List ℕ → FloatVal) (st : LoopSt P)
        (b : List Inp × List ℕ),
      (trainLossOf ops criterion st b).isFinite = true →
      train_batch ops criterion st b = Except.ok
        { net := ⟨ops.optStep (ops.backward (ops.zeroGrad st.net.params) b.1
              b.2), st.net.training⟩
          mlog := st.mlog.update "loss" (trainLossOf ops criterion st b) 1
          total_correct := st.total_correct +
            countCorrect (ops.forward st.net.training st.net.params b.1) b.2
          total_samples := st.total_samples + b.2.length
          trace := st.trace ++
            [Event.modelForward st.net.training false,
             Event.lossComputed (trainLossOf ops criterion st b),
             Event.finiteCheck true, Event.zeroGradCall, Event.backwardCall,
             Event.optStepCall, Event.cudaSync,
             Event.meterUpdate "loss" (trainLossOf ops criterion st b) 1,
             Event.accCount
               (countCorrect (ops.forward st.net.training st.net.params b.1)
                 b.2) b.2.length] }) ∧
    (∀ (P Q Inp : Type) (ops : TorchOps P Inp)
        (teacherForward : Bool → Q → List Inp → List (List ℚ)) (lib : KDLib)
        (criterion : List (List ℚ) → List ℕ → FloatVal) (alpha temp : ℚ)
        (st : KDLoopSt P Q) (b : List Inp × List ℕ),
      (distillLossOf ops teacherForward lib criterion alpha temp st
          b).isFinite = true →
      distill_batch ops teacherForward lib criterion alpha temp st b
        = Except.ok
        { teacher := st.teacher
          student := ⟨ops.optStep (ops.backward (ops.zeroGrad
              st.student.params) b.1 b.2), st.student.training⟩
          mlog := st.mlog.update "loss"
            (distillLossOf ops teacherForward lib criterion alpha temp st b) 1
          total_correct := st.total_correct +
            countCorrect (ops.forward st.student.training st.student.params
              b.1) b.2
          total_samples := st.total_samples + b.2.length
          trace := st.trace ++
            [Event.modelForward st.student.training false,
             Event.teacherForward st.teacher.training true,
             Event.lossComputed
               (distillLossOf ops teacherForward lib criterion alpha temp st
                 b),
             Event.finiteCheck true, Event.zeroGradCall, Event.backwardCall,
             Event.optStepCall, Event.cudaSync,
             Event.meterUpdate "loss"
               (distillLossOf ops teacherForward lib criterion alpha temp st
                 b) 1,
             Event.accCount
               (countCorrect (ops.forward st.student.training
                 st.student.params b.1) b.2) b.2.length] }) ∧
    (∀ (P Inp : Type) (ops : TorchOps P Inp)
        (criterion : List (List ℚ) → List ℕ → FloatVal) (st : LoopSt P)
        (dl : List (List Inp × List ℕ)),
      (foldTrain ops criterion st dl).isOk = true →
      (stepSt (foldTrain ops criterion st dl)).trace.countP Event.isOptStep
        = st.trace.countP Event.isOptStep + dl.length) ∧
    (∀ (P Q Inp : Type) (ops : TorchOps P Inp)
        (teacherForward : Bool → Q → List Inp → List (List ℚ)) (lib : KDLib)
        (criterion : List (List ℚ) → List ℕ → FloatVal) (alpha temp : ℚ)
        (st : KDLoopSt P Q) (dl : List (List Inp × List ℕ)),
      (foldDistill ops teacherForward lib criterion alpha temp st dl).isOk
        = true →
      (kdStepSt (foldDistill ops teacherForward lib criterion alpha temp st
          dl)).trace.countP Event.isOptStep
        = st.trace.countP Event.isOptStep + dl.length) := by
  refine ⟨?_, ?_, ?_, ?_⟩
  · intro P Inp ops criterion st b h
    exact train_batch_ok ops criterion st b h
  · intro P Q Inp ops teacherForward lib criterion alpha temp st b h
    exact distill_batch_ok ops teacherForward lib criterion alpha temp st b h
  · intro P Inp ops criterion st dl h
    rcases hf : foldTrain ops criterion st dl with e | st2
    · rw [hf] at h
      simp [Except.isOk, Except.toBool] at h
    · exact (foldTrain_ok_facts ops criterion dl st st2 hf).2.1
  · intro P Q Inp ops teacherForward lib criterion alpha temp st dl h
    rcases hf : foldDistill ops teacherForward lib criterion alpha temp st dl
      with e | st2
    · rw [hf] at h
      simp [Except.isOk, Except.toBool] at h
    · exact (foldDistill_ok_facts ops teacherForward lib criterion alpha temp
        dl st st2 hf).2.2.1

/-- Witness for C4 at concrete inputs: a finite-loss batch is processed with
the stated trace, and a two-batch epoch performs exactly two optimizer
steps. -/
theorem claim4_per_batch_step_order_witness :
    (trainLossOf unitOps oneCrit stA batch0).isFinite = true ∧
    train_batch unitOps oneCrit stA batch0 = Except.ok
      { net := ⟨unitOps.optStep (unitOps.backward (unitOps.zeroGrad
            stA.net.params) batch0.1 batch0.2), stA.net.training⟩
        mlog := stA.mlog.update "loss" (trainLossOf unitOps oneCrit stA
          batch0) 1
        total_correct := stA.total_correct +
          countCorrect (unitOps.forward stA.net.training stA.net.params
            batch0.1) batch0.2
        total_samples := stA.total_samples + batch0.2.length
        trace := stA.trace ++
          [Event.modelForward stA.net.training false,
           Event.lossComputed (trainLossOf unitOps oneCrit stA batch0),
           Event.finiteCheck true, Event.zeroGradCall, Event.backwardCall,
           Event.optStepCall, Event.cudaSync,
           Event.meterUpdate "loss" (trainLossOf unitOps oneCrit stA batch0)
             1,
           Event.accCount
             (countCorrect (unitOps.forward stA.net.training stA.net.params
               batch0.1) batch0.2) batch0.2.length] } ∧
    (foldTrain unitOps oneCrit stA [batch0, batch0]).isOk = true ∧
    (stepSt (foldTrain unitOps oneCrit stA [batch0,
        batch0])).trace.countP Event.isOptStep
      = stA.trace.countP Event.isOptStep + 2 ∧
    (foldDistill unitOps teacherFwd0 lib0 oneCrit (1 / 2) 2 kdStA
      [batch0]).isOk = true ∧
    (kdStepSt (foldDistill unitOps teacherFwd0 lib0 oneCrit (1 / 2) 2 kdStA
        [batch0])).trace.countP Event.isOptStep
      = kdStA.trace.countP Event.isOptStep + 1 :=
  ⟨by decide,
   claim4_per_batch_step_order.1 ℕ Unit unitOps oneCrit stA batch0
     (by decide),
   by decide,
   claim4_per_batch_step_order.2.2.1 ℕ Unit unitOps oneCrit stA
     [batch0, batch0] (by decide),
   by decide,
   claim4_per_batch_step_order.2.2.2 ℕ ℕ Unit unitOps teacherFwd0 lib0
     oneCrit (1 / 2) 2 kdStA [batch0] (by decide)⟩

/-- C5: When the non-finite-loss abort triggers in either training loop, the
state carried out at the exit has the same model/optimizer state, metric
meters and accuracy counters as after the previous batch: the only events
added for the aborting batch are the forward pass(es), the loss computation,
the failed finiteness check, the print and the exit — no gradient zeroing,
backward pass, optimizer step, or metric-logger update.  At epoch level, the
abort happens at the first batch whose loss is non-finite, after a prefix of
normally processed batches. -/
theorem claim5_abort_atomicity :
    (∀ (P Inp : Type) (ops : TorchOps P Inp)
        (criterion : List (List ℚ) → List ℕ → FloatVal) (st : LoopSt P)
        (b : List Inp × List ℕ),
      (trainLossOf ops criterion st b).isFinite = false →
      (stepSt (train_batch ops criterion st b)).net = st.net ∧
      (stepSt (train_batch ops criterion st b)).mlog = st.mlog ∧
      (stepSt (train_batch ops criterion st b)).total_correct
        = st.total_correct ∧
      (stepSt (train_batch ops criterion st b)).total_samples
        = st.total_samples ∧
      (stepSt (train_batch ops criterion st b)).trace = st.trace ++
        [Event.modelForward st.net.training false,
         Event.lossComputed (trainLossOf ops criterion st b),
         Event.finiteCheck false,
         Event.printLine (lossMsg (trainLossOf ops criterion st b)),
         Event.exitCalled 1] ∧
      (train_batch ops criterion st b).isOk = false) ∧
    (∀ (P Q Inp : Type) (ops : TorchOps P Inp)
        (teacherForward : Bool → Q → List Inp → List (List ℚ)) (lib : KDLib)
        (criterion : List (List ℚ) → List ℕ → FloatVal) (alpha temp : ℚ)
        (st : KDLoopSt P Q) (b : List Inp × List ℕ),
      (distillLossOf ops teacherForward lib criterion alpha temp st
          b).isFinite = false →
      (kdStepSt (distill_batch ops teacherForward lib criterion alpha temp st
          b)).teacher = st.teacher ∧
      (kdStepSt (distill_batch ops teacherForward lib criterion alpha temp st
          b)).student = st.student ∧
      (kdStepSt (distill_batch ops teacherForward lib criterion alpha temp st
          b)).mlog = st.mlog ∧
      (kdStepSt (distill_batch ops teacherForward lib criterion alpha temp st
          b)).total_correct = st.total_correct ∧
      (kdStepSt (distill_batch ops teacherForward lib criterion alpha temp st
          b)).total_samples = st.total_samples ∧
      (kdStepSt (distill_batch ops teacherForward lib criterion alpha temp st
          b)).trace = st.trace ++
        [Event.modelForward st.student.training false,
         Event.teacherForward st.teacher.training true,
         Event.lossComputed
           (distillLossOf ops teacherForward lib criterion alpha temp st b),
         Event.finiteCheck false,
         Event.printLine (lossMsg
           (distillLossOf ops teacherForward lib criterion alpha temp st b)),
         Event.exitCalled 1] ∧
      (distill_batch ops teacherForward lib criterion alpha temp st
        b).isOk = false) ∧
    (∀ (P Inp : Type) (ops : TorchOps P Inp)
        (criterion : List (List ℚ) → List ℕ → FloatVal) (st : LoopSt P)
        (dl : List (List Inp × List ℕ)),
      (foldTrain ops criterion st dl).isOk = false →
      ∃ pre b post st1, dl = pre ++ b :: post ∧
        foldTrain ops criterion st pre = Except.ok st1 ∧
        (trainLossOf ops criterion st1 b).isFinite = false ∧
        foldTrain ops criterion st dl = train_batch ops criterion st1 b) ∧
    (∀ (P Q Inp : Type) (ops : TorchOps P Inp)
        (teacherForward : Bool → Q → List Inp → List (List ℚ)) (lib : KDLib)
        (criterion : List (List ℚ) → List ℕ → FloatVal) (alpha temp : ℚ)
        (st : KDLoopSt P Q) (dl : List (List Inp × List ℕ)),
      (foldDistill ops teacherForward lib criterion alpha temp st dl).isOk
        = false →
      ∃ pre b post st1, dl = pre ++ b :: post ∧
        foldDistill ops teacherForward lib criterion alpha temp st pre
          = Except.ok st1 ∧
        (distillLossOf ops teacherForward lib criterion alpha temp st1
          b).isFinite = false ∧
        foldDistill ops teacherForward lib criterion alpha temp st dl
          = distill_batch ops teacherForward lib criterion alpha temp st1
              b) := by
  refine ⟨?_, ?_, ?_, ?_⟩
  · intro P Inp ops criterion st b h
    rw [train_batch_err ops criterion st b h]
    exact ⟨rfl, rfl, rfl, rfl, rfl, rfl⟩
  · intro P Q Inp ops teacherForward lib criterion alpha temp st b h
    rw [distill_batch_err ops teacherForward lib criterion alpha temp st b h]
    exact ⟨rfl, rfl, rfl, rfl, rfl, rfl, rfl⟩
  · intro P Inp ops criterion st dl h
    exact foldTrain_err_decomp ops criterion dl st h
  · intro P Q Inp ops teacherForward lib criterion alpha temp st dl h
    exact foldDistill_err_decomp ops teacherForward lib criterion alpha temp
      dl st h

/-- Witness for C5 at concrete inputs: with a NaN-returning criterion the
batch aborts leaving the state fields unchanged, and a one-good-one-bad
epoch aborts at the second batch. -/
theorem claim5_abort_atomicity_witness :
    (trainLossOf unitOps nanCrit stA batch0).isFinite = false ∧
    (stepSt (train_batch unitOps nanCrit stA batch0)).mlog = stA.mlog ∧
    (stepSt (train_batch unitOps nanCrit stA batch0)).net = stA.net ∧
    (distillLossOf unitOps teacherFwd0 lib0 nanCrit (1 / 2) 2 kdStA
      batch0).isFinite = false ∧
    (kdStepSt (distill_batch unitOps teacherFwd0 lib0 nanCrit (1 / 2) 2 kdStA
      batch0)).student = kdStA.student ∧
    (foldTrain unitOps nanCrit stA [batch0]).isOk = false ∧
    (∃ pre b post st1, [batch0] = pre ++ b :: post ∧
      foldTrain unitOps nanCrit stA pre = Except.ok st1 ∧
      (trainLossOf unitOps nanCrit st1 b).isFinite = false ∧
      foldTrain unitOps nanCrit stA [batch0]
        = train_batch unitOps nanCrit st1 b) :=
  ⟨by decide,
   (claim5_abort_atomicity.1 ℕ Unit unitOps nanCrit stA batch0
     (by decide)).2.1,
   (claim5_abort_atomicity.1 ℕ Unit unitOps nanCrit stA batch0
     (by decide)).1,
   by decide,
   (claim5_abort_atomicity.2.1 ℕ ℕ Unit unitOps teacherFwd0 lib0 nanCrit
     (1 / 2) 2 kdStA batch0 (by decide)).2.1,
   by decide,
   claim5_abort_atomicity.2.2.1 ℕ Unit unitOps nanCrit stA [batch0]
     (by decide)⟩

/-- C6: In both training loops, every processed batch adds to
`total_correct` the number of rows whose argmax over dimension 1 equals the
target, and to `total_samples` the batch's number of targets; at the end of
the epoch the reported training accuracy equals
`100 * total_correct / total_samples`, where the totals are exactly the sums
of the per-batch counts accumulated over the epoch. -/
theorem claim6_training_accuracy :
    (∀ (outputs : List (List ℚ)) (targets : List ℕ),
      countCorrect outputs targets
        = ((outputs.zip targets).filter
            (fun p => argmaxIdx p.1 = p.2)).length) ∧
    (∀ (P Inp : Type) (ops : TorchOps P Inp)
        (criterion : List (List ℚ) → List ℕ → FloatVal) (st : LoopSt P)
        (b : List Inp × List ℕ),
      (trainLossOf ops criterion st b).isFinite = true →
      (stepSt (train_batch ops criterion st b)).total_correct
        = st.total_correct +
            countCorrect (ops.forward st.net.training st.net.params b.1)
              b.2 ∧
      (stepSt (train_batch ops criterion st b)).total_samples
        = st.total_samples + b.2.length) ∧
    (∀ (P Q Inp : Type) (ops : TorchOps P Inp)
        (teacherForward : Bool → Q → List Inp → List (List ℚ)) (lib : KDLib)
        (criterion : List (List ℚ) → List ℕ → FloatVal) (alpha temp : ℚ)
        (st : KDLoopSt P Q) (b : List Inp × List ℕ),
      (distillLossOf ops teacherForward lib criterion alpha temp st
          b).isFinite = true →
      (kdStepSt (distill_batch ops teacherForward lib criterion alpha temp st
          b)).total_correct
        = st.total_correct +
            countCorrect (ops.forward st.student.training st.student.params
              b.1) b.2 ∧
      (kdStepSt (distill_batch ops teacherForward lib criterion alpha temp st
          b)).total_samples = st.total_samples + b.2.length) ∧
    (∀ (P Inp : Type) (ops : TorchOps P Inp)
        (criterion : List (List ℚ) → List ℕ → FloatVal) (net : Net P)
        (dl : List (List Inp × List ℕ)),
      (train_one_epoch ops criterion net dl).isOk = true →
      okAccuracyPct (train_one_epoch ops criterion net dl)
        = 100 * ((finalLoopSt (train_one_epoch ops criterion net
              dl)).total_correct : ℚ)
            / ((finalLoopSt (train_one_epoch ops criterion net
              dl)).total_samples : ℚ) ∧
      (finalLoopSt (train_one_epoch ops criterion net dl)).total_correct
        = traceCorrectSum
            (finalLoopSt (train_one_epoch ops criterion net dl)).trace ∧
      (finalLoopSt (train_one_epoch ops criterion net dl)).total_samples
        = traceSamplesSum
            (finalLoopSt (train_one_epoch ops criterion net dl)).trace) ∧
    (∀ (P Q Inp : Type) (ops : TorchOps P Inp)
        (teacherForward : Bool → Q → List Inp → List (List ℚ)) (lib : KDLib)
        (criterion : List (List ℚ) → List ℕ → FloatVal) (teacher : Net Q)
        (student : Net P) (dl : List (List Inp × List ℕ)) (alpha temp : ℚ),
      (train_one_epoch_distillation ops teacherForward lib criterion teacher
        student dl alpha temp).isOk = true →
      kdOkAccuracyPct (train_one_epoch_distillation ops teacherForward lib
          criterion teacher student dl alpha temp)
        = 100 * ((kdOutcomeSt (train_one_epoch_distillation ops
              teacherForward lib criterion teacher student dl alpha
              temp)).total_correct : ℚ)
            / ((kdOutcomeSt (train_one_epoch_distillation ops teacherForward
              lib criterion teacher student dl alpha temp)).total_samples :
              ℚ) ∧
      (kdOutcomeSt (train_one_epoch_distillation ops teacherForward lib
          criterion teacher student dl alpha temp)).total_correct
        = traceCorrectSum (kdOutcomeSt (train_one_epoch_distillation ops
            teacherForward lib criterion teacher student dl alpha
            temp)).trace ∧
      (kdOutcomeSt (train_one_epoch_distillation ops teacherForward lib
          criterion teacher student dl alpha temp)).total_samples
        = traceSamplesSum (kdOutcomeSt (train_one_epoch_distillation ops
            teacherForward lib criterion teacher student dl alpha
            temp)).trace) := by
  refine ⟨fun outputs targets => rfl, ?_, ?_, ?_, ?_⟩
  · intro P Inp ops criterion st b h
    rw [train_batch_ok ops criterion st b h]
    exact ⟨rfl, rfl⟩
  · intro P Q Inp ops teacherForward lib criterion alpha temp st b h
    rw [distill_batch_ok ops teacherForward lib criterion alpha temp st b h]
    exact ⟨rfl, rfl⟩
  · intro P Inp ops criterion net dl h
    obtain ⟨hfold, hts, hres, hacc⟩ :=
      train_one_epoch_shape ops criterion net dl h
    obtain ⟨h1, h2, h3, h4, h5, h6⟩ :=
      foldTrain_ok_facts ops criterion dl _ _ hfold
    refine ⟨hacc, ?_, ?_⟩
    · simp only [traceCorrectSum] at h3
      omega
    · simp only [traceSamplesSum] at h4
      omega
  · intro P Q Inp ops teacherForward lib criterion teacher student dl alpha
      temp h
    obtain ⟨hfold, hts, hres, hacc⟩ :=
      kd_one_epoch_shape ops teacherForward lib criterion teacher student dl
        alpha temp h
    obtain ⟨h0, h1, h2, h3, h4, h5, h7, h8⟩ :=
      foldDistill_ok_facts ops teacherForward lib criterion alpha temp dl _ _
        hfold
    refine ⟨hacc, ?_, ?_⟩
    · simp only [traceCorrectSum] at h3
      omega
    · simp only [traceSamplesSum] at h4
      omega

/-- Witness for C6 at concrete inputs: one finite-loss batch updates both
counters, and a one-batch epoch reports `100 * total_correct /
total_samples`. -/
theorem claim6_training_accuracy_witness :
    (trainLossOf unitOps oneCrit stA batch0).isFinite = true ∧
    (stepSt (train_batch unitOps oneCrit stA batch0)).total_correct
      = stA.total_correct +
          countCorrect (unitOps.forward stA.net.training stA.net.params
            batch0.1) batch0.2 ∧
    (train_one_epoch unitOps oneCrit net0 [batch0]).isOk = true ∧
    okAccuracyPct (train_one_epoch unitOps oneCrit net0 [batch0])
      = 100 * ((finalLoopSt (train_one_epoch unitOps oneCrit net0
            [batch0])).total_correct : ℚ)
          / ((finalLoopSt (train_one_epoch unitOps oneCrit net0
            [batch0])).total_samples : ℚ) ∧
    (train_one_epoch_distillation unitOps teacherFwd0 lib0 oneCrit
      (⟨7, true⟩ : Net ℕ) net0 [batch0] (1 / 2) 2).isOk = true ∧
    (kdOutcomeSt (train_one_epoch_distillation unitOps teacherFwd0 lib0
        oneCrit (⟨7, true⟩ : Net ℕ) net0 [batch0] (1 / 2) 2)).total_correct
      = traceCorrectSum (kdOutcomeSt (train_one_epoch_distillation unitOps
          teacherFwd0 lib0 oneCrit (⟨7, true⟩ : Net ℕ) net0 [batch0] (1 / 2)
          2)).trace :=
  ⟨by decide,
   (claim6_training_accuracy.2.1 ℕ Unit unitOps oneCrit stA batch0
     (by decide)).1,
   by decide,
   (claim6_training_accuracy.2.2.2.1 ℕ Unit unitOps oneCrit net0 [batch0]
     (by decide)).1,
   by decide,
   (claim6_training_accuracy.2.2.2.2 ℕ ℕ Unit unitOps teacherFwd0 lib0
     oneCrit (⟨7, true⟩ : Net ℕ) net0 [batch0] (1 / 2) 2
     (by decide)).2.1⟩

/-- C7: Each of the three loops is a sequential fold over its batch list:
the head batch is fully processed and its resulting state is the input to
the processing of the tail (an abort short-circuits the rest), so the loops
consume batches strictly in the order yielded; and each function is a pure
function of its inputs, so two runs on equal inputs return equal results. -/
theorem claim7_sequential_and_deterministic :
    (∀ (P Inp : Type) (ops : TorchOps P Inp)
        (criterion : List (List ℚ) → List ℕ → FloatVal) (st : LoopSt P)
        (b : List Inp × List ℕ) (bs : List (List Inp × List ℕ)),
      foldTrain ops criterion st (b :: bs)
        = match train_batch ops criterion st b with
          | Except.ok st2 => foldTrain ops criterion st2 bs
          | Except.error e => Except.error e) ∧
    (∀ (P Q Inp : Type) (ops : TorchOps P Inp)
        (teacherForward : Bool → Q → List Inp → List (List ℚ)) (lib : KDLib)
        (criterion : List (List ℚ) → List ℕ → FloatVal) (alpha temp : ℚ)
        (st : KDLoopSt P Q) (b : List Inp × List ℕ)
        (bs : List (List Inp × List ℕ)),
      foldDistill ops teacherForward lib criterion alpha temp st (b :: bs)
        = match distill_batch ops teacherForward lib criterion alpha temp st
              b with
          | Except.ok st2 =>
              foldDistill ops teacherForward lib criterion alpha temp st2 bs
          | Except.error e => Except.error e) ∧
    (∀ (P Inp : Type) (forward : Bool → P → List Inp → List (List ℚ))
        (criterion : List (List ℚ) → List ℕ → FloatVal) (st : EvalSt P)
        (b : List Inp × List ℕ) (bs : List (List Inp × List ℕ)),
      (b :: bs).foldl (eval_batch forward criterion) st
        = bs.foldl (eval_batch forward criterion)
            (eval_batch forward criterion st b)) ∧
    (∀ (P Inp : Type) (ops : TorchOps P Inp)
        (criterion : List (List ℚ) → List ℕ → FloatVal) (net : Net P)
        (dl1 dl2 : List (List Inp × List ℕ)), dl1 = dl2 →
      train_one_epoch ops criterion net dl1
        = train_one_epoch ops criterion net dl2) ∧
    (∀ (P Q Inp : Type) (ops : TorchOps P Inp)
        (teacherForward : Bool → Q → List Inp → List (List ℚ)) (lib : KDLib)
        (criterion : List (List ℚ) → List ℕ → FloatVal) (teacher : Net Q)
        (student : Net P) (alpha temp : ℚ)
        (dl1 dl2 : List (List Inp × List ℕ)), dl1 = dl2 →
      train_one_epoch_distillation ops teacherForward lib criterion teacher
          student dl1 alpha temp
        = train_one_epoch_distillation ops teacherForward lib criterion
            teacher student dl2 alpha temp) ∧
    (∀ (P Inp : Type) (forward : Bool → P → List Inp → List (List ℚ))
        (criterion : List (List ℚ) → List ℕ → FloatVal) (net : Net P)
        (dl1 dl2 : List (List Inp × List ℕ)), dl1 = dl2 →
      evaluate dl1 forward criterion net = evaluate dl2 forward criterion
        net) := by
  refine ⟨?_, ?_, ?_, ?_, ?_, ?_⟩
  · intro P Inp ops criterion st b bs
    rfl
  · intro P Q Inp ops teacherForward lib criterion alpha temp st b bs
    rfl
  · intro P Inp forward criterion st b bs
    rfl
  · intro P Inp ops criterion net dl1 dl2 h
    rw [h]
  · intro P Q Inp ops teacherForward lib criterion teacher student alpha temp
      dl1 dl2 h
    rw [h]
  · intro P Inp forward criterion net dl1 dl2 h
    rw [h]

/-- Witness for C7 at concrete inputs: the fold unfolds one batch at a time
and equal batch lists give equal epoch results. -/
theorem claim7_sequential_and_deterministic_witness :
    ([batch0] = [batch0]) ∧
    train_one_epoch unitOps oneCrit net0 [batch0]
      = train_one_epoch unitOps oneCrit net0 [batch0] ∧
    evaluate [batch0] unitOps.forward oneCrit net0
      = evaluate [batch0] unitOps.forward oneCrit net0 ∧
    foldTrain unitOps oneCrit stA [batch0]
      = match train_batch unitOps oneCrit stA batch0 with
        | Except.ok st2 => foldTrain unitOps oneCrit st2 []
        | Except.error e => Except.error e :=
  ⟨rfl,
   claim7_sequential_and_deterministic.2.2.2.1 ℕ Unit unitOps oneCrit net0
     [batch0] [batch0] rfl,
   claim7_sequential_and_deterministic.2.2.2.2.2 ℕ Unit unitOps.forward
     oneCrit net0 [batch0] [batch0] rfl,
   claim7_sequential_and_deterministic.1 ℕ Unit unitOps oneCrit stA batch0
     []⟩

/-- C8: On an empty data loader both training loops leave
`total_samples = 0` and the final line
`accuracy = 100.0 * total_correct / total_samples` raises
`ZeroDivisionError` (the `zeroDivision` outcome, raised with the loop state
untouched), so a non-empty data loader is a precondition for a normal
return. -/
theorem claim8_empty_loader_zero_division :
    (∀ (P Inp : Type) (ops : TorchOps P Inp)
        (criterion : List (List ℚ) → List ℕ → FloatVal) (net : Net P),
      train_one_epoch ops criterion net ([] : List (List Inp × List ℕ))
        = Except.error
            (RunErr.zeroDivision ⟨⟨net.params, true⟩, [], 0, 0, []⟩)) ∧
    (∀ (P Q Inp : Type) (ops : TorchOps P Inp)
        (teacherForward : Bool → Q → List Inp → List (List ℚ)) (lib : KDLib)
        (criterion : List (List ℚ) → List ℕ → FloatVal) (teacher : Net Q)
        (student : Net P) (alpha temp : ℚ),
      train_one_epoch_distillation ops teacherForward lib criterion teacher
          student ([] : List (List Inp × List ℕ)) alpha temp
        = Except.error (KDRunErr.zeroDivision
            ⟨⟨teacher.params, false⟩, ⟨student.params, true⟩, [], 0, 0,
              []⟩)) ∧
    (∀ (P Inp : Type) (ops : TorchOps P Inp)
        (criterion : List (List ℚ) → List ℕ → FloatVal) (net : Net P)
        (dl : List (List Inp × List ℕ)),
      (train_one_epoch ops criterion net dl).isOk = true → dl ≠ []) ∧
    (∀ (P Q Inp : Type) (ops : TorchOps P Inp)
        (teacherForward : Bool → Q → List Inp → List (List ℚ)) (lib : KDLib)
        (criterion : List (List ℚ) → List ℕ → FloatVal) (teacher : Net Q)
        (student : Net P) (dl : List (List Inp × List ℕ)) (alpha temp : ℚ),
      (train_one_epoch_distillation ops teacherForward lib criterion teacher
        student dl alpha temp).isOk = true → dl ≠ []) := by
  refine ⟨?_, ?_, ?_, ?_⟩
  · intro P Inp ops criterion net
    rfl
  · intro P Q Inp ops teacherForward lib criterion teacher student alpha temp
    rfl
  · intro P Inp ops criterion net dl h hdl
    subst hdl
    have h0 : train_one_epoch ops criterion net
        ([] : List (List Inp × List ℕ)) = Except.error
        (RunErr.zeroDivision ⟨⟨net.params, true⟩, [], 0, 0, []⟩) := rfl
    rw [h0] at h
    simp [Except.isOk, Except.toBool] at h
  · intro P Q Inp ops teacherForward lib criterion teacher student dl alpha
      temp h hdl
    subst hdl
    have h0 : train_one_epoch_distillation ops teacherForward lib criterion
        teacher student ([] : List (List Inp × List ℕ)) alpha temp
        = Except.error (KDRunErr.zeroDivision
          ⟨⟨teacher.params, false⟩, ⟨student.params, true⟩, [], 0, 0, []⟩) :=
      rfl
    rw [h0] at h
    simp [Except.isOk, Except.toBool] at h

/-- Witness for C8 at concrete inputs: the empty loader gives the
`ZeroDivisionError` outcome, and a normally returning one-batch epoch has a
non-empty loader. -/
theorem claim8_empty_loader_zero_division_witness :
    train_one_epoch unitOps oneCrit net0 ([] : List (List Unit × List ℕ))
      = Except.error
          (RunErr.zeroDivision ⟨⟨net0.params, true⟩, [], 0, 0, []⟩) ∧
    (train_one_epoch unitOps oneCrit net0 [batch0]).isOk = true ∧
    [batch0] ≠ ([] : List (List Unit × List ℕ)) ∧
    (train_one_epoch_distillation unitOps teacherFwd0 lib0 oneCrit
      (⟨7, true⟩ : Net ℕ) net0 [batch0] (1 / 2) 2).isOk = true ∧
    [batch0] ≠ ([] : List (List Unit × List ℕ)) ∧ True :=
  ⟨claim8_empty_loader_zero_division.1 ℕ Unit unitOps oneCrit net0,
   by decide,
   claim8_empty_loader_zero_division.2.2.1 ℕ Unit unitOps oneCrit net0
     [batch0] (by decide),
   by decide,
   claim8_empty_loader_zero_division.2.2.2 ℕ ℕ Unit unitOps teacherFwd0 lib0
     oneCrit (⟨7, true⟩ : Net ℕ) net0 [batch0] (1 / 2) 2 (by decide),
   trivial⟩

/-- C9: `evaluate` never modifies the model parameters: it switches the
model to evaluation mode, every forward pass runs inside the
`@torch.no_grad()` scope, and the loop performs no gradient zeroing, no
backward pass and no optimizer step, so the parameters after the call equal
the parameters before it for every data loader and criterion. -/
theorem claim9_evaluate_preserves_model (P Inp : Type)
    (dl : List (List Inp × List ℕ))
    (forward : Bool → P → List Inp → List (List ℚ))
    (criterion : List (List ℚ) → List ℕ → FloatVal) (net : Net P) :
    (evaluate dl forward criterion net).finalSt.net.params = net.params ∧
    (evaluate dl forward criterion net).finalSt.net.training = false ∧
    ((evaluate dl forward criterion net).finalSt.trace.all
      (fun e => !e.isGradOp)) = true ∧
    ((evaluate dl forward criterion net).finalSt.trace.all
      Event.noGradForward) = true := by
  refine ⟨?_, ?_, ?_, ?_⟩
  · simp only [evaluate]
    rw [evalFold_net]
  · simp only [evaluate]
    rw [evalFold_net]
  · simp only [evaluate]
    apply evalFold_trace_all
    · intro t
      rfl
    · intro v
      rfl
    · intro name v n
      rfl
    · rfl
  · simp only [evaluate]
    apply evalFold_trace_all
    · intro t
      rfl
    · intro v
      rfl
    · intro name v n
      rfl
    · rfl

/-- C10: `train_one_epoch_distillation` never updates the teacher: on every
outcome the teacher model ends with its original parameters and in
evaluation mode, every teacher forward pass in the trace ran in evaluation
mode inside `torch.no_grad`, and each batch iteration returns the teacher
state it received — the gradient operations are applied to the student
parameters only. -/
theorem claim10_teacher_frozen (P Q Inp : Type) (ops : TorchOps P Inp)
    (teacherForward : Bool → Q → List Inp → List (List ℚ)) (lib : KDLib)
    (criterion : List (List ℚ) → List ℕ → FloatVal) (teacher : Net Q)
    (student : Net P) (dl : List (List Inp × List ℕ)) (alpha temp : ℚ) :
    (kdOutcomeSt (train_one_epoch_distillation ops teacherForward lib
        criterion teacher student dl alpha temp)).teacher
      = ⟨teacher.params, false⟩ ∧
    ((kdOutcomeSt (train_one_epoch_distillation ops teacherForward lib
        criterion teacher student dl alpha temp)).trace.all
      Event.teacherEvalNoGrad) = true ∧
    (∀ (st : KDLoopSt P Q) (b : List Inp × List ℕ),
      (kdStepSt (distill_batch ops teacherForward lib criterion alpha temp st
        b)).teacher = st.teacher) := by
  have hstep : ∀ (st : KDLoopSt P Q) (b : List Inp × List ℕ),
      (kdStepSt (distill_batch ops teacherForward lib criterion alpha temp st
        b)).teacher = st.teacher := by
    intro st b
    rcases hv : (distillLossOf ops teacherForward lib criterion alpha temp st
        b).isFinite with _ | _
    · rw [distill_batch_err ops teacherForward lib criterion alpha temp st b
        hv]
      rfl
    · rw [distill_batch_ok ops teacherForward lib criterion alpha temp st b
        hv]
      rfl
  rcases hf : foldDistill ops teacherForward lib criterion alpha temp
      ⟨⟨teacher.params, false⟩, ⟨student.params, true⟩, [], 0, 0, []⟩ dl
    with e | stF
  · have hdec := foldDistill_err_decomp ops teacherForward lib criterion
      alpha temp dl ⟨⟨teacher.params, false⟩, ⟨student.params, true⟩, [], 0,
        0, []⟩ (by rw [hf]; rfl)
    obtain ⟨pre, b, post, st1, hdl, hpre, hfin, heq⟩ := hdec
    obtain ⟨h0, h1, h2, h3, h4, h5, h7, h8⟩ :=
      foldDistill_ok_facts ops teacherForward lib criterion alpha temp pre _
        _ hpre
    have herr : Except.error e = distill_batch ops teacherForward lib
        criterion alpha temp st1 b := by
      rw [← hf, heq]
    rw [distill_batch_err ops teacherForward lib criterion alpha temp st1 b
      hfin] at herr
    have he : e = ⟨lossMsg (distillLossOf ops teacherForward lib criterion
        alpha temp st1 b), 1,
        { st1 with trace := st1.trace ++
          [Event.modelForward st1.student.training false,
           Event.teacherForward st1.teacher.training true,
           Event.lossComputed
             (distillLossOf ops teacherForward lib criterion alpha temp st1
               b),
           Event.finiteCheck false,
           Event.printLine (lossMsg
             (distillLossOf ops teacherForward lib criterion alpha temp st1
               b)),
           Event.exitCalled 1] }⟩ := Except.error.inj herr
    have hout : kdOutcomeSt (train_one_epoch_distillation ops teacherForward
        lib criterion teacher student dl alpha temp) = e.st := by
      simp only [train_one_epoch_distillation]
      rw [hf]
      rfl
    rw [hout, he]
    have hteach : st1.teacher = ⟨teacher.params, false⟩ := h0
    have htr : st1.trace.all Event.teacherEvalNoGrad = true := h7 rfl rfl
    refine ⟨hteach, ?_, hstep⟩
    show (st1.trace ++
        [Event.modelForward st1.student.training false,
         Event.teacherForward st1.teacher.training true,
         Event.lossComputed
           (distillLossOf ops teacherForward lib criterion alpha temp st1 b),
         Event.finiteCheck false,
         Event.printLine (lossMsg
           (distillLossOf ops teacherForward lib criterion alpha temp st1
             b)),
         Event.exitCalled 1]).all Event.teacherEvalNoGrad = true
    rw [List.all_append, htr]
    simp [Event.teacherEvalNoGrad, hteach]
  · obtain ⟨h0, h1, h2, h3, h4, h5, h7, h8⟩ :=
      foldDistill_ok_facts ops teacherForward lib criterion alpha temp dl _
        stF hf
    have hteach : stF.teacher = ⟨teacher.params, false⟩ := h0
    have htr : stF.trace.all Event.teacherEvalNoGrad = true :=
      h7 rfl rfl
    have hout : kdOutcomeSt (train_one_epoch_distillation ops teacherForward
        lib criterion teacher student dl alpha temp) = stF := by
      simp only [train_one_epoch_distillation]
      rw [hf]
      by_cases hts : stF.total_samples = 0
      · simp only []
        rw [if_pos hts]
        rfl
      · simp only []
        rw [if_neg hts]
        rfl
    rw [hout]
    exact ⟨hteach, htr, hstep⟩

end VitEngine
